import Mathlib

/- Verification of the guidance-rs JSON-Schema-to-regex compiler
   (src/guidance.rs, src/handle_types.rs, src/types.rs).

   The Rust code is shallowly embedded: `serde_json::Value` becomes
   `JsonValue`, `anyhow::Result<String>` becomes `CompRes String`, and the
   call-stack recursion of `to_regex` is made explicit with a fuel
   parameter (one unit of fuel per `to_regex` stack frame); running out of
   fuel is the distinguished outcome `fuelOut`, and a Rust panic (the
   `unwrap()` in `handle_object_type`) is the distinguished outcome
   `panicked`.  All literal brace characters inside string literals are
   written with the escapes \x7b and \x7d. -/

/-- JSON values as handled by serde_json.  Object member order is
preserved (insertion order): the crate is used with order-preserving maps,
as the spec's data model section requires for the properties handler.
Numbers are modelled as integers; every numeric field the engine reads is
an integral bound. -/
inductive JsonValue where
  | null
  | bool (b : Bool)
  | num (n : Int)
  | str (s : String)
  | arr (xs : List JsonValue)
  | obj (kvs : List (String × JsonValue))

/-- First value bound to `key`, mirroring `Map::get`. -/
def getKey? : List (String × JsonValue) → String → Option JsonValue
  | [], _ => none
  | (k, v) :: rest, key => if k = key then some v else getKey? rest key

/-- Mirrors `Map::contains_key`. -/
def containsKey (kvs : List (String × JsonValue)) (key : String) : Bool :=
  (getKey? kvs key).isSome

/-- Mirrors `Value::as_u64` (negative numbers have no u64 view). -/
def JsonValue.as_u64 : JsonValue → Option Nat
  | .num n => if n < 0 then none else some n.toNat
  | _ => none

/-- Numeric view used for the `as_f64` comparisons; the embedding only
models integral numbers, on which the f64 order is the integer order. -/
def JsonValue.asNum : JsonValue → Option Int
  | .num n => some n
  | _ => none

/-- Mirrors `Value::as_str`. -/
def JsonValue.as_str : JsonValue → Option String
  | .str s => some s
  | _ => none

/-- Mirrors `Value::as_object`. -/
def JsonValue.as_object : JsonValue → Option (List (String × JsonValue))
  | .obj kvs => some kvs
  | _ => none

/-- Mirrors `Value::as_array`. -/
def JsonValue.as_array : JsonValue → Option (List JsonValue)
  | .arr xs => some xs
  | _ => none

/-- Outcome of running a compilation function: `ok` is `Ok(pattern)`,
`err` is an `anyhow` error carrying its message, `panicked` is a Rust
panic, and `fuelOut` is the modelling artifact for exceeding the explicit
stack budget. -/
inductive CompRes (α : Type) where
  | ok (a : α)
  | err (msg : String)
  | panicked
  | fuelOut
deriving DecidableEq

/-- Sequencing mirroring the `?` operator: errors, panics and fuel
exhaustion short-circuit. -/
def CompRes.bind : CompRes α → (α → CompRes β) → CompRes β
  | .ok a, f => f a
  | .err m, _ => .err m
  | .panicked, _ => .panicked
  | .fuelOut, _ => .fuelOut

instance : Monad CompRes where
  pure := .ok
  bind := CompRes.bind

/-- Mirrors `Iterator::collect::<Result<Vec<_>>>`: left to right, first
failure wins, later elements are not evaluated. -/
def mapMC (f : α → CompRes β) : List α → CompRes (List β)
  | [] => .ok []
  | x :: xs => (f x).bind fun y => (mapMC f xs).bind fun ys => .ok (y :: ys)

def CompRes.isErr : CompRes α → Bool
  | .err _ => true
  | _ => false

/- Primitive pattern library (src/types.rs). -/

def STRING_INNER : String := "([^\"\\\\\\x00-\\x1F\\x7F-\\x9F]|\\\\[\"\\\\])"

def STRING : String := "\"([^\"\\\\\\x00-\\x1F\\x7F-\\x9F]|\\\\[\"\\\\])*\""

def INTEGER : String := "(-)?(0|[1-9][0-9]*)"

def NUMBER : String := "((-)?(0|[1-9][0-9]*))(\\.[0-9]+)?([eE][+-][0-9]+)?"

def BOOLEAN : String := "(true|false)"

def NULL : String := "null"

def WHITESPACE : String := "[ ]?"

def DATE_TIME : String :=
  "\"(-?(?:[1-9][0-9]*)?[0-9]\x7b4\x7d)-(1[0-2]|0[1-9])-(3[01]|0[1-9]|[12][0-9])T(2[0-3]|[01][0-9]):([0-5][0-9]):([0-5][0-9])(\\.[0-9]\x7b3\x7d)?(Z)?\""

def DATE : String :=
  "\"(?:\\d\x7b4\x7d)-(?:0[1-9]|1[0-2])-(?:0[1-9]|[1-2][0-9]|3[0-1])\""

def TIME : String :=
  "\"(2[0-3]|[01][0-9]):([0-5][0-9]):([0-5][0-9])(\\\\.[0-9]+)?(Z)?\""

def UUID : String :=
  "\"[0-9a-f]\x7b8\x7d-[0-9a-f]\x7b4\x7d-[0-9a-f]\x7b4\x7d-[0-9a-f]\x7b4\x7d-[0-9a-f]\x7b12\x7d\""

inductive JsonType where
  | string | integer | number | boolean | null

def JsonType.to_regex : JsonType → String
  | .string => STRING
  | .integer => INTEGER
  | .number => NUMBER
  | .boolean => BOOLEAN
  | .null => NULL

inductive FormatType where
  | dateTime | date | time | uuid

def FormatType.to_regex : FormatType → String
  | .dateTime => DATE_TIME
  | .date => DATE
  | .time => TIME
  | .uuid => UUID

def FormatType.from_str : String → Option FormatType
  | "date-time" => some .dateTime
  | "date" => some .date
  | "time" => some .time
  | "uuid" => some .uuid
  | _ => none

/- The escaping used by `regex::escape`: a backslash is prepended to each
meta character of the regex crate. -/

def regexMetaChars : List Char :=
  ['\\', '.', '+', '*', '?', '(', ')', '|', '[', ']', '\x7b', '\x7d',
   '^', '$', '#', '&', '-', '~']

def regexEscapeChar (c : Char) : String :=
  if regexMetaChars.contains c then String.mk ['\\', c] else String.mk [c]

def regex_escape (s : String) : String :=
  String.join (s.data.map regexEscapeChar)

/- The string serialization used by `serde_json::to_string` on scalar
values (string bodies: quote and backslash get two-character escapes,
control characters get their short escape or a lowercase \u00XX form). -/

def hexDigit (n : Nat) : Char :=
  if n < 10 then Char.ofNat (48 + n) else Char.ofNat (87 + n)

def jsonEscapeChar (c : Char) : String :=
  if c = '"' then "\\\""
  else if c = '\\' then "\\\\"
  else if c = '\x08' then "\\b"
  else if c = '\x09' then "\\t"
  else if c = '\x0A' then "\\n"
  else if c = '\x0C' then "\\f"
  else if c = '\x0D' then "\\r"
  else if c.toNat < 32 then
    String.mk ['\\', 'u', '0', '0', hexDigit (c.toNat / 16), hexDigit (c.toNat % 16)]
  else String.mk [c]

def jsonQuote (s : String) : String :=
  "\"" ++ String.join (s.data.map jsonEscapeChar) ++ "\""

/- Type handlers (src/handle_types.rs). -/

def handle_boolean_type : CompRes String := .ok JsonType.boolean.to_regex

def handle_null_type : CompRes String := .ok JsonType.null.to_regex

/-- Option Int comparison mirroring Rust's `PartialOrd` on `Option<f64>`
as used by `min_items.as_f64() > max_items.as_f64()`: `None` is below any
`Some`. -/
def optGt : Option Int → Option Int → Bool
  | some a, some b => a > b
  | some _, none => true
  | none, _ => false

def handle_string_type (obj : List (String × JsonValue)) : CompRes String :=
  if containsKey obj "maxLength" || containsKey obj "minLength" then
    let max_items := getKey? obj "maxLength"
    let min_items := getKey? obj "minLength"
    if min_items.isSome && max_items.isSome &&
        optGt (min_items.bind JsonValue.asNum) (max_items.bind JsonValue.asNum) then
      .err "maxLength must be greater than or equal to minLength"
    else
      let formatted_max := match max_items.bind JsonValue.as_u64 with
        | some n => toString n
        | none => ""
      let formatted_min := match min_items.bind JsonValue.as_u64 with
        | some n => toString n
        | none => ""
      .ok ("\"" ++ STRING_INNER ++ "\x7b" ++ formatted_min ++ "," ++ formatted_max ++ "\x7d\"")
  else
    match (getKey? obj "pattern").bind JsonValue.as_str with
    | some p =>
        if p.startsWith "^" && p.endsWith "$" then
          .ok ("(\"" ++ ((p.drop 1).dropRight 1) ++ "\")")
        else
          .ok ("(\"" ++ p ++ "\")")
    | none =>
        match (getKey? obj "format").bind JsonValue.as_str with
        | some fmt =>
            match FormatType.from_str fmt with
            | some format_type => .ok format_type.to_regex
            | none => .err ("Format " ++ fmt ++ " is not supported by Outlines")
        | none => .ok JsonType.string.to_regex

/-- Mirrors `NonZeroU64::new`: zero becomes `None`. -/
def nzNew (n : Nat) : Option Nat := if n = 0 then none else some n

/-- The `Ord` instance of `Option<NonZeroU64>`: `None` is least. -/
def optNZlt : Option Nat → Option Nat → Bool
  | none, none => false
  | none, some _ => true
  | some _, none => false
  | some a, some b => a < b

def validate_quantifiers (min_bound max_bound : Option Nat) (start_offset : Nat) :
    CompRes (Option Nat × Option Nat) :=
  let min' := min_bound.map (fun n => nzNew (n - start_offset))
  let max' := max_bound.map (fun n => nzNew (n - start_offset))
  match min', max' with
  | some mn, some mx =>
      if optNZlt mx mn then .err "max bound must be greater than or equal to min bound"
      else .ok (mn, mx)
  | mn, mx => .ok (mn.join, mx.join)

def handle_integer_type (obj : List (String × JsonValue)) : CompRes String :=
  if containsKey obj "minDigits" || containsKey obj "maxDigits" then
    (validate_quantifiers ((getKey? obj "minDigits").bind JsonValue.as_u64)
        ((getKey? obj "maxDigits").bind JsonValue.as_u64) 1).bind fun q =>
      let quantifier := match q.1, q.2 with
        | some mn, some mx => "\x7b" ++ toString mn ++ "," ++ toString mx ++ "\x7d"
        | some mn, none => "\x7b" ++ toString mn ++ ",\x7d"
        | none, some mx => "\x7b1," ++ toString mx ++ "\x7d"
        | none, none => "*"
      .ok ("(-)?(0|[1-9][0-9]" ++ quantifier ++ ")")
  else .ok JsonType.integer.to_regex

def numberBoundKeys : List String :=
  ["minDigitsInteger", "maxDigitsInteger", "minDigitsFraction",
   "maxDigitsFraction", "minDigitsExponent", "maxDigitsExponent"]

def handle_number_type (obj : List (String × JsonValue)) : CompRes String :=
  if numberBoundKeys.any (fun k => containsKey obj k) then
    (validate_quantifiers ((getKey? obj "minDigitsInteger").bind JsonValue.as_u64)
        ((getKey? obj "maxDigitsInteger").bind JsonValue.as_u64) 1).bind fun qi =>
    (validate_quantifiers ((getKey? obj "minDigitsFraction").bind JsonValue.as_u64)
        ((getKey? obj "maxDigitsFraction").bind JsonValue.as_u64) 0).bind fun qf =>
    (validate_quantifiers ((getKey? obj "minDigitsExponent").bind JsonValue.as_u64)
        ((getKey? obj "maxDigitsExponent").bind JsonValue.as_u64) 0).bind fun qe =>
      let integers_quantifier := match qi.1, qi.2 with
        | some mn, some mx => "\x7b" ++ toString mn ++ "," ++ toString mx ++ "\x7d"
        | some mn, none => "\x7b" ++ toString mn ++ ",\x7d"
        | none, some mx => "\x7b1," ++ toString mx ++ "\x7d"
        | none, none => "*"
      let fraction_quantifier := match qf.1, qf.2 with
        | some mn, some mx => "\x7b" ++ toString mn ++ "," ++ toString mx ++ "\x7d"
        | some mn, none => "\x7b" ++ toString mn ++ ",\x7d"
        | none, some mx => "\x7b0," ++ toString mx ++ "\x7d"
        | none, none => "+"
      let exponent_quantifier := match qe.1, qe.2 with
        | some mn, some mx => "\x7b" ++ toString mn ++ "," ++ toString mx ++ "\x7d"
        | some mn, none => "\x7b" ++ toString mn ++ ",\x7d"
        | none, some mx => "\x7b0," ++ toString mx ++ "\x7d"
        | none, none => "+"
      .ok ("((-)?(0|[1-9][0-9]" ++ integers_quantifier ++ "))(\\.[0-9]" ++
           fraction_quantifier ++ ")?([eE][+-][0-9]" ++ exponent_quantifier ++ ")?")
  else .ok JsonType.number.to_regex

def get_num_items_pattern (min_items max_items : Option Nat) : Option String :=
  let mn := min_items.getD 0
  match max_items with
  | none => some ("\x7b" ++ toString (mn - 1) ++ ",\x7d")
  | some mx =>
      if mx < 1 then none
      else some ("\x7b" ++ toString (mn - 1) ++ "," ++ toString (mx - 1) ++ "\x7d")

/-- The `depth` budget a under-constrained array/object node reads from
its own members: `obj.get("depth").and_then(|v| v.as_u64()).unwrap_or(2)`. -/
def depthOf (obj : List (String × JsonValue)) : Nat :=
  ((getKey? obj "depth").bind JsonValue.as_u64).getD 2

def typedSchema (t : String) : JsonValue := .obj [("type", .str t)]

def typedDepthSchema (t : String) (d : Nat) : JsonValue :=
  .obj [("type", .str t), ("depth", .num (Int.ofNat d))]

/-- The `legal_types` vector built by `handle_object_type` for the
unconstrained-value case. -/
def objectLegalTypes (depth : Nat) : List JsonValue :=
  [typedSchema "string", typedSchema "number", typedSchema "boolean", typedSchema "null"] ++
  (if depth > 0 then
    [typedDepthSchema "object" (depth - 1), typedDepthSchema "array" (depth - 1)]
   else [])

def handle_object_type (recur : JsonValue → CompRes String)
    (obj : List (String × JsonValue)) (whitespace_pattern : String) : CompRes String :=
  let min_properties := (getKey? obj "minProperties").bind JsonValue.as_u64
  let max_properties := (getKey? obj "maxProperties").bind JsonValue.as_u64
  match get_num_items_pattern min_properties max_properties with
  | none => .ok ("\\\x7b" ++ whitespace_pattern ++ "\x7d")
  | some num_repeats =>
    let allow_empty := if min_properties.getD 0 = 0 then "?" else ""
    let value_pattern : CompRes String :=
      match getKey? obj "additionalProperties" with
      | none => recur (.obj [("anyOf", .arr (objectLegalTypes (depthOf obj)))])
      | some (.bool true) => recur (.obj [("anyOf", .arr (objectLegalTypes (depthOf obj)))])
      | some ap => recur ap
    match value_pattern with
    | .ok vp =>
        let key_value_pattern :=
          STRING ++ whitespace_pattern ++ ":" ++ whitespace_pattern ++ vp
        let key_value_successor_pattern :=
          whitespace_pattern ++ "," ++ whitespace_pattern ++ key_value_pattern
        let multiple_key_value_pattern :=
          "(" ++ key_value_pattern ++ "(" ++ key_value_successor_pattern ++ ")\x7b" ++
            num_repeats ++ "\x7d)" ++ allow_empty
        .ok ("\\\x7b" ++ whitespace_pattern ++ multiple_key_value_pattern ++
             whitespace_pattern ++ "\x7d")
    | .err _ => .panicked
    | .panicked => .panicked
    | .fuelOut => .fuelOut

/-- The `legal_types` vector built by `handle_array_type` when `items` is
absent. -/
def arrayLegalTypes (depth : Nat) : List JsonValue :=
  [typedSchema "boolean", typedSchema "null", typedSchema "number",
   typedSchema "integer", typedSchema "string"] ++
  (if depth > 0 then
    [typedDepthSchema "object" (depth - 1), typedDepthSchema "array" (depth - 1)]
   else [])

def handle_array_type (recur : JsonValue → CompRes String)
    (obj : List (String × JsonValue)) (whitespace_pattern : String) : CompRes String :=
  let num_repeats := (get_num_items_pattern ((getKey? obj "minItems").bind JsonValue.as_u64)
      ((getKey? obj "maxItems").bind JsonValue.as_u64)).getD ""
  if num_repeats = "" then
    .ok ("\\[" ++ whitespace_pattern ++ whitespace_pattern ++ "\\]")
  else
    let allow_empty := if ((getKey? obj "minItems").bind JsonValue.as_u64).getD 0 = 0
      then "?" else ""
    match getKey? obj "items" with
    | some items =>
        (recur items).bind fun items_regex =>
          .ok ("\\[" ++ whitespace_pattern ++ "((" ++ items_regex ++ ")(," ++
               whitespace_pattern ++ "(" ++ items_regex ++ "))" ++ num_repeats ++ ")" ++
               allow_empty ++ whitespace_pattern ++ "\\]")
    | none =>
        (mapMC recur (arrayLegalTypes (depthOf obj))).bind fun regexes =>
          let regexes_joined := String.intercalate "|" regexes
          .ok ("\\[" ++ whitespace_pattern ++ "((" ++ regexes_joined ++ ")(," ++
               whitespace_pattern ++ "(" ++ regexes_joined ++ "))" ++ num_repeats ++ ")" ++
               allow_empty ++ whitespace_pattern ++ "\\]")

/- Keyword handlers and the dispatcher (src/guidance.rs). -/

def handle_properties (recur : JsonValue → CompRes String)
    (obj : List (String × JsonValue)) (whitespace_pattern : String) : CompRes String :=
  match (getKey? obj "properties").bind JsonValue.as_object with
  | none => .err "'properties' not found or not an object"
  | some properties =>
    let required_properties :=
      (((getKey? obj "required").bind JsonValue.as_array).map
        (fun arr => arr.filterMap JsonValue.as_str)).getD []
    let is_required := properties.map (fun kv => required_properties.contains kv.1)
    if is_required.any id then
      let last_required_pos :=
        ((is_required.enum.filter (fun p => p.2)).map (fun p => p.1)).foldr max 0
      (mapMC (fun p =>
          (recur p.2.2).bind fun sub =>
            let subregex := whitespace_pattern ++ "\"" ++ regex_escape p.2.1 ++ "\"" ++
              whitespace_pattern ++ ":" ++ whitespace_pattern ++ sub
            let subregex :=
              if p.1 < last_required_pos then subregex ++ whitespace_pattern ++ ","
              else if p.1 > last_required_pos then whitespace_pattern ++ "," ++ subregex
              else subregex
            .ok (if is_required.getD p.1 false then subregex
                 else "(" ++ subregex ++ ")?"))
        properties.enum).bind fun pieces =>
      .ok ("\\\x7b" ++ String.join pieces ++ whitespace_pattern ++ "\\\x7d")
    else
      (mapMC (fun kv =>
          (recur kv.2).bind fun sub =>
            .ok (whitespace_pattern ++ "\"" ++ regex_escape kv.1 ++ "\"" ++
              whitespace_pattern ++ ":" ++ whitespace_pattern ++ sub))
        properties.reverse).bind fun property_subregexes =>
      let possible_patterns := (List.range property_subregexes.length).map (fun i =>
        String.join ((property_subregexes.take i).map
          (fun s => "(" ++ s ++ whitespace_pattern ++ ",)?")) ++
        property_subregexes.getD i "" ++
        String.join ((property_subregexes.drop (i + 1)).map
          (fun s => "(" ++ whitespace_pattern ++ "," ++ s ++ ")?")))
      .ok ("\\\x7b(" ++ String.intercalate "|" possible_patterns ++ ")?" ++
           whitespace_pattern ++ "\\\x7d")

def handle_all_of (recur : JsonValue → CompRes String)
    (obj : List (String × JsonValue)) (_whitespace_pattern : String) : CompRes String :=
  match getKey? obj "allOf" with
  | some (.arr all_of) =>
      (mapMC recur all_of).bind fun subregexes =>
        .ok ("(" ++ String.join subregexes ++ ")")
  | _ => .err "'allOf' must be an array"

def handle_any_of (recur : JsonValue → CompRes String)
    (obj : List (String × JsonValue)) (_whitespace_pattern : String) : CompRes String :=
  match getKey? obj "anyOf" with
  | some (.arr any_of) =>
      (mapMC recur any_of).bind fun subregexes =>
        .ok ("(" ++ String.intercalate "|" subregexes ++ ")")
  | _ => .err "'anyOf' must be an array"

def handle_one_of (recur : JsonValue → CompRes String)
    (obj : List (String × JsonValue)) (_whitespace_pattern : String) : CompRes String :=
  match getKey? obj "oneOf" with
  | some (.arr one_of) =>
      (mapMC recur one_of).bind fun subregexes =>
        let xor_patterns := subregexes.map (fun s => "(?:" ++ s ++ ")")
        .ok ("(" ++ String.intercalate "|" xor_patterns ++ ")")
  | _ => .err "'oneOf' must be an array"

def handle_prefix_items (recur : JsonValue → CompRes String)
    (obj : List (String × JsonValue)) (whitespace_pattern : String) : CompRes String :=
  match getKey? obj "prefixItems" with
  | some (.arr prefix_items) =>
      (mapMC recur prefix_items).bind fun element_patterns =>
        let comma_split_pattern := whitespace_pattern ++ "," ++ whitespace_pattern
        let tuple_inner := String.intercalate comma_split_pattern element_patterns
        .ok ("\\[" ++ whitespace_pattern ++ tuple_inner ++ whitespace_pattern ++ "\\]")
  | _ => .err "'prefixItems' must be an array"

/-- Scalar JSON literals admit a canonical serialization; composites are
rejected by the enum/const handlers. -/
def serializeScalar : JsonValue → Option String
  | .null => some "null"
  | .bool b => some (if b then "true" else "false")
  | .num n => some (toString n)
  | .str s => some (jsonQuote s)
  | _ => none

def handle_enum (obj : List (String × JsonValue)) (_whitespace_pattern : String) :
    CompRes String :=
  match getKey? obj "enum" with
  | some (.arr enum_values) =>
      (mapMC (fun choice =>
          match serializeScalar choice with
          | some s => .ok (regex_escape s)
          | none => .err "Unsupported data type in enum")
        enum_values).bind fun choices =>
      .ok ("(" ++ String.intercalate "|" choices ++ ")")
  | _ => .err "'enum' must be an array"

def handle_const (obj : List (String × JsonValue)) (_whitespace_pattern : String) :
    CompRes String :=
  match getKey? obj "const" with
  | some const_value =>
      match serializeScalar const_value with
      | some s => .ok (regex_escape s)
      | none => .err "Unsupported data type in const"
  | none => .err "'const' key not found in object"

def handle_type (recur : JsonValue → CompRes String)
    (obj : List (String × JsonValue)) (whitespace_pattern : String) : CompRes String :=
  match (getKey? obj "type").bind JsonValue.as_str with
  | none => .err "'type' must be a string"
  | some instance_type =>
    match instance_type with
    | "string" => handle_string_type obj
    | "number" => handle_number_type obj
    | "integer" => handle_integer_type obj
    | "array" => handle_array_type recur obj whitespace_pattern
    | "object" => handle_object_type recur obj whitespace_pattern
    | "boolean" => handle_boolean_type
    | "null" => handle_null_type
    | t => .err ("Unsupported type: " ++ t)

/-- The seven unconstrained alternatives of `handle_empty_object`, in
source order. -/
def emptyObjectTypes : List JsonValue :=
  [typedSchema "boolean", typedSchema "null", typedSchema "number",
   typedSchema "integer", typedSchema "string", typedSchema "array",
   typedSchema "object"]

def handle_empty_object (recur : JsonValue → CompRes String)
    (_whitespace_pattern : String) : CompRes String :=
  (mapMC recur emptyObjectTypes).bind fun regexes =>
    let wrapped_regexes := regexes.map (fun r => "(" ++ r ++ ")")
    .ok (String.intercalate "|" wrapped_regexes)

inductive SchemaKeyword where
  | properties | allOf | anyOf | oneOf | prefixItems | enum | const | ref | type
deriving DecidableEq

/-- The fixed ordered keyword list scanned by `to_regex`. -/
def recognizedKeywords : List (String × SchemaKeyword) :=
  [("properties", .properties), ("allOf", .allOf), ("anyOf", .anyOf),
   ("oneOf", .oneOf), ("prefixItems", .prefixItems), ("enum", .enum),
   ("const", .const), ("$ref", .ref), ("type", .type)]

/-- The `find_map` over the ordered keyword list. -/
def selectKeyword (kvs : List (String × JsonValue)) : Option SchemaKeyword :=
  recognizedKeywords.findSome? (fun p => if containsKey kvs p.1 then some p.2 else none)

/-- The `match keyword` dispatch of `to_regex`; `Ref` falls through to the
catch-all arm. -/
def dispatchKeyword (kw : SchemaKeyword) (recur : JsonValue → CompRes String)
    (obj : List (String × JsonValue)) (ws : String) : CompRes String :=
  match kw with
  | .properties => handle_properties recur obj ws
  | .allOf => handle_all_of recur obj ws
  | .anyOf => handle_any_of recur obj ws
  | .oneOf => handle_one_of recur obj ws
  | .prefixItems => handle_prefix_items recur obj ws
  | .enum => handle_enum obj ws
  | .const => handle_const obj ws
  | .ref => .err "Unsupported JSON Schema keyword: Ref"
  | .type => handle_type recur obj ws

/-- The dispatcher `to_regex`, with one unit of fuel consumed per stack
frame.  The error message for an unrecognized structure is abbreviated
(the Rust message interpolates the offending node). -/
def toRegexFuel : Nat → JsonValue → Option String → CompRes String
  | 0, _, _ => .fuelOut
  | fuel + 1, json, whitespace_pattern =>
    let ws := whitespace_pattern.getD WHITESPACE
    let recur := fun v => toRegexFuel fuel v (some ws)
    match json with
    | .obj obj =>
        if obj.isEmpty then handle_empty_object recur ws
        else
          match selectKeyword obj with
          | some kw => dispatchKeyword kw recur obj ws
          | none => .err "Unsupported JSON Schema structure"
    | _ => .err "Invalid JSON Schema: expected an object"

/- Regular-expression semantics.  Emitted patterns are given their
standard meaning through a small regex AST: character classes (lists of
inclusive ranges, possibly negated), concatenation, alternation and
Kleene star; `RMatch` is the usual inductive matching relation and
`rmatch` the Brzozowski-derivative decision procedure, proved equivalent
below. -/

inductive Regex where
  | emp
  | eps
  | cls (neg : Bool) (ranges : List (Char × Char))
  | cat (r s : Regex)
  | alt (r s : Regex)
  | star (r : Regex)
deriving DecidableEq

/-- Membership of a character in a class. -/
def clsMatch (neg : Bool) (ranges : List (Char × Char)) (c : Char) : Bool :=
  let inR := ranges.any (fun p => p.1 ≤ c && c ≤ p.2)
  if neg then !inR else inR

/-- A single literal character, as a one-range class. -/
def litR (c : Char) : Regex := .cls false [(c, c)]

/-- An optional pattern, as emitted for a `?` postfix. -/
def optR (r : Regex) : Regex := .alt .eps r

inductive RMatch : Regex → List Char → Prop where
  | eps : RMatch .eps []
  | cls {neg : Bool} {ranges : List (Char × Char)} {c : Char}
      (h : clsMatch neg ranges c = true) : RMatch (.cls neg ranges) [c]
  | cat {r s : Regex} {xs ys : List Char} (hr : RMatch r xs) (hs : RMatch s ys) :
      RMatch (.cat r s) (xs ++ ys)
  | altL {r s : Regex} {xs : List Char} (h : RMatch r xs) : RMatch (.alt r s) xs
  | altR {r s : Regex} {xs : List Char} (h : RMatch s xs) : RMatch (.alt r s) xs
  | starNil {r : Regex} : RMatch (.star r) []
  | starCons {r : Regex} {xs ys : List Char} (h1 : RMatch r xs)
      (h2 : RMatch (.star r) ys) : RMatch (.star r) (xs ++ ys)

def nullable : Regex → Bool
  | .emp => false
  | .eps => true
  | .cls _ _ => false
  | .cat r s => nullable r && nullable s
  | .alt r s => nullable r || nullable s
  | .star _ => true

/-- Concatenation with unit/absorber smashing, keeping derivatives small. -/
def catS (r s : Regex) : Regex :=
  if r = .emp then .emp
  else if s = .emp then .emp
  else if r = .eps then s
  else if s = .eps then r
  else .cat r s

/-- Alternation with absorber smashing, keeping derivatives small. -/
def altS (r s : Regex) : Regex :=
  if r = .emp then s
  else if s = .emp then r
  else .alt r s

def derivR : Regex → Char → Regex
  | .emp, _ => .emp
  | .eps, _ => .emp
  | .cls neg ranges, c => if clsMatch neg ranges c then .eps else .emp
  | .cat r s, c =>
      if nullable r then altS (catS (derivR r c) s) (derivR s c)
      else catS (derivR r c) s
  | .alt r s, c => altS (derivR r c) (derivR s c)
  | .star r, c => catS (derivR r c) (.star r)

def rmatch (r : Regex) : List Char → Bool
  | [] => nullable r
  | c :: cs => rmatch (derivR r c) cs

/- A parser for the regex dialect the compiler emits: literals, two-byte
and hex escapes, character classes with ranges and negation, groups,
alternation, and the postfix operators `?`, `*`, `+`.  Constructs the
compiler never emits inside the patterns examined here (counted
repetitions, anchors, non-capturing groups) make the parse fail rather
than silently mis-read. -/

def hexVal (c : Char) : Option Nat :=
  if '0' ≤ c && c ≤ '9' then some (c.toNat - 48)
  else if 'a' ≤ c && c ≤ 'f' then some (c.toNat - 87)
  else if 'A' ≤ c && c ≤ 'F' then some (c.toNat - 55)
  else none

/-- One class member, possibly escaped. -/
def parseClsChar : List Char → Option (Char × List Char)
  | '\\' :: 'x' :: h1 :: h2 :: rest =>
      (hexVal h1).bind fun a => (hexVal h2).bind fun b =>
        some (Char.ofNat (16 * a + b), rest)
  | '\\' :: c :: rest => some (c, rest)
  | ']' :: _ => none
  | '\\' :: [] => none
  | c :: rest => some (c, rest)
  | [] => none

def parseClsItems : Nat → List Char → Option (List (Char × Char) × List Char)
  | 0, _ => none
  | _, ']' :: rest => some ([], rest)
  | fuel + 1, s =>
      (parseClsChar s).bind fun p =>
      match p.2 with
      | '-' :: s2 =>
          (parseClsChar s2).bind fun q =>
          (parseClsItems fuel q.2).bind fun r =>
            some ((p.1, q.1) :: r.1, r.2)
      | s1 =>
          (parseClsItems fuel s1).bind fun r =>
            some ((p.1, p.1) :: r.1, r.2)

/-- Characters that cannot stand alone as a literal atom. -/
def atomStopChars : List Char :=
  ['(', ')', '[', ']', '|', '?', '*', '+', '\\', '^', '$', '\x7b', '\x7d']

mutual

def parseAlt : Nat → List Char → Option (Regex × List Char)
  | 0, _ => none
  | fuel + 1, s =>
      (parseCat fuel s).bind fun p =>
      match p.2 with
      | '|' :: s2 => (parseAlt fuel s2).bind fun q => some (.alt p.1 q.1, q.2)
      | s1 => some (p.1, s1)

def parseCat : Nat → List Char → Option (Regex × List Char)
  | 0, _ => none
  | fuel + 1, s =>
      match s with
      | [] => some (.eps, [])
      | ')' :: _ => some (.eps, s)
      | '|' :: _ => some (.eps, s)
      | _ =>
        (parseRep fuel s).bind fun p =>
        match p.2 with
        | [] => some (p.1, [])
        | ')' :: _ => some (p.1, p.2)
        | '|' :: _ => some (p.1, p.2)
        | _ => (parseCat fuel p.2).bind fun q => some (.cat p.1 q.1, q.2)

def parseRep : Nat → List Char → Option (Regex × List Char)
  | 0, _ => none
  | fuel + 1, s => (parseAtom fuel s).bind fun p => parsePostfix fuel p.1 p.2

def parsePostfix : Nat → Regex → List Char → Option (Regex × List Char)
  | 0, _, _ => none
  | fuel + 1, r, s =>
      match s with
      | '?' :: rest => parsePostfix fuel (optR r) rest
      | '*' :: rest => parsePostfix fuel (.star r) rest
      | '+' :: rest => parsePostfix fuel (.cat r (.star r)) rest
      | _ => some (r, s)

def parseAtom : Nat → List Char → Option (Regex × List Char)
  | 0, _ => none
  | fuel + 1, s =>
      match s with
      | '(' :: rest =>
          (parseAlt fuel rest).bind fun p =>
            match p.2 with
            | ')' :: s2 => some (p.1, s2)
            | _ => none
      | '[' :: '^' :: rest =>
          (parseClsItems fuel rest).bind fun p => some (.cls true p.1, p.2)
      | '[' :: rest =>
          (parseClsItems fuel rest).bind fun p => some (.cls false p.1, p.2)
      | '\\' :: 'x' :: h1 :: h2 :: rest =>
          (hexVal h1).bind fun a => (hexVal h2).bind fun b =>
            some (litR (Char.ofNat (16 * a + b)), rest)
      | '\\' :: c :: rest => some (litR c, rest)
      | c :: rest => if atomStopChars.contains c then none else some (litR c, rest)
      | [] => none

end

/-- Parse a complete pattern; any unconsumed input is a failure. -/
def parseRegex (s : String) : Option Regex :=
  match parseAlt (2 * s.data.length + 10) s.data with
  | some (r, []) => some r
  | _ => none

def strMatch (r : Regex) (s : String) : Prop := RMatch r s.data

/- Named inputs and auxiliary predicates used by the claim theorems. -/

/-- A bound pair errs in `validate_quantifiers` exactly when, after
saturating subtraction of the start offset, max is below min. -/
def badPair (mn mx : Option Nat) (off : Nat) : Bool :=
  match mn, mx with
  | some a, some b => decide (b - off < a - off)
  | _, _ => false

/-- The schema of claim C1: properties `a` then `b`, both strings, no
`required`. -/
def schemaAB : JsonValue :=
  .obj [("type", .str "object"),
        ("properties", .obj [("a", .obj [("type", .str "string")]),
                             ("b", .obj [("type", .str "string")])])]

/-- The parsed form of the pattern the compiler emits for an array schema
with `minItems 0`, `maxItems 0` and no `items`, under the default
whitespace configuration. -/
def emptyArrayRegex : Regex :=
  .cat (litR '[') (.cat (optR (litR ' ')) (.cat (optR (litR ' ')) (litR ']')))


/-- The pattern the compiler emits for `schemaAB` under the default
whitespace configuration (checked against `toRegexFuel` below). -/
def c1pattern : String :=
  "\\\x7b([ ]?\"b\"[ ]?:[ ]?\"([^\"\\\\\\x00-\\x1F\\x7F-\\x9F]|\\\\[\"\\\\])*\"([ ]?,[ ]?\"a\"[ ]?:[ ]?\"([^\"\\\\\\x00-\\x1F\\x7F-\\x9F]|\\\\[\"\\\\])*\")?|([ ]?\"b\"[ ]?:[ ]?\"([^\"\\\\\\x00-\\x1F\\x7F-\\x9F]|\\\\[\"\\\\])*\"[ ]?,)?[ ]?\"a\"[ ]?:[ ]?\"([^\"\\\\\\x00-\\x1F\\x7F-\\x9F]|\\\\[\"\\\\])*\")?[ ]?\\\x7d"

/-- The pattern the compiler emits for the empty object schema under the
default whitespace configuration (checked against `toRegexFuel` below). -/
def c7pattern : String :=
  "((true|false))|(null)|(((-)?(0|[1-9][0-9]*))(\\.[0-9]+)?([eE][+-][0-9]+)?)|((-)?(0|[1-9][0-9]*))|(\"([^\"\\\\\\x00-\\x1F\\x7F-\\x9F]|\\\\[\"\\\\])*\")|(\\[[ ]?(((true|false)|null|((-)?(0|[1-9][0-9]*))(\\.[0-9]+)?([eE][+-][0-9]+)?|(-)?(0|[1-9][0-9]*)|\"([^\"\\\\\\x00-\\x1F\\x7F-\\x9F]|\\\\[\"\\\\])*\"|\\\x7b[ ]?(\"([^\"\\\\\\x00-\\x1F\\x7F-\\x9F]|\\\\[\"\\\\])*\"[ ]?:[ ]?(\"([^\"\\\\\\x00-\\x1F\\x7F-\\x9F]|\\\\[\"\\\\])*\"|((-)?(0|[1-9][0-9]*))(\\.[0-9]+)?([eE][+-][0-9]+)?|(true|false)|null|\\\x7b[ ]?(\"([^\"\\\\\\x00-\\x1F\\x7F-\\x9F]|\\\\[\"\\\\])*\"[ ]?:[ ]?(\"([^\"\\\\\\x00-\\x1F\\x7F-\\x9F]|\\\\[\"\\\\])*\"|((-)?(0|[1-9][0-9]*))(\\.[0-9]+)?([eE][+-][0-9]+)?|(true|false)|null)([ ]?,[ ]?\"([^\"\\\\\\x00-\\x1F\\x7F-\\x9F]|\\\\[\"\\\\])*\"[ ]?:[ ]?(\"([^\"\\\\\\x00-\\x1F\\x7F-\\x9F]|\\\\[\"\\\\])*\"|((-)?(0|[1-9][0-9]*))(\\.[0-9]+)?([eE][+-][0-9]+)?|(true|false)|null))\x7b\x7b0,\x7d\x7d)?[ ]?\x7d|\\[[ ]?(((true|false)|null|((-)?(0|[1-9][0-9]*))(\\.[0-9]+)?([eE][+-][0-9]+)?|(-)?(0|[1-9][0-9]*)|\"([^\"\\\\\\x00-\\x1F\\x7F-\\x9F]|\\\\[\"\\\\])*\")(,[ ]?((true|false)|null|((-)?(0|[1-9][0-9]*))(\\.[0-9]+)?([eE][+-][0-9]+)?|(-)?(0|[1-9][0-9]*)|\"([^\"\\\\\\x00-\\x1F\\x7F-\\x9F]|\\\\[\"\\\\])*\"))\x7b0,\x7d)?[ ]?\\])([ ]?,[ ]?\"([^\"\\\\\\x00-\\x1F\\x7F-\\x9F]|\\\\[\"\\\\])*\"[ ]?:[ ]?(\"([^\"\\\\\\x00-\\x1F\\x7F-\\x9F]|\\\\[\"\\\\])*\"|((-)?(0|[1-9][0-9]*))(\\.[0-9]+)?([eE][+-][0-9]+)?|(true|false)|null|\\\x7b[ ]?(\"([^\"\\\\\\x00-\\x1F\\x7F-\\x9F]|\\\\[\"\\\\])*\"[ ]?:[ ]?(\"([^\"\\\\\\x00-\\x1F\\x7F-\\x9F]|\\\\[\"\\\\])*\"|((-)?(0|[1-9][0-9]*))(\\.[0-9]+)?([eE][+-][0-9]+)?|(true|false)|null)([ ]?,[ ]?\"([^\"\\\\\\x00-\\x1F\\x7F-\\x9F]|\\\\[\"\\\\])*\"[ ]?:[ ]?(\"([^\"\\\\\\x00-\\x1F\\x7F-\\x9F]|\\\\[\"\\\\])*\"|((-)?(0|[1-9][0-9]*))(\\.[0-9]+)?([eE][+-][0-9]+)?|(true|false)|null))\x7b\x7b0,\x7d\x7d)?[ ]?\x7d|\\[[ ]?(((true|false)|null|((-)?(0|[1-9][0-9]*))(\\.[0-9]+)?([eE][+-][0-9]+)?|(-)?(0|[1-9][0-9]*)|\"([^\"\\\\\\x00-\\x1F\\x7F-\\x9F]|\\\\[\"\\\\])*\")(,[ ]?((true|false)|null|((-)?(0|[1-9][0-9]*))(\\.[0-9]+)?([eE][+-][0-9]+)?|(-)?(0|[1-9][0-9]*)|\"([^\"\\\\\\x00-\\x1F\\x7F-\\x9F]|\\\\[\"\\\\])*\"))\x7b0,\x7d)?[ ]?\\]))\x7b\x7b0,\x7d\x7d)?[ ]?\x7d|\\[[ ]?(((true|false)|null|((-)?(0|[1-9][0-9]*))(\\.[0-9]+)?([eE][+-][0-9]+)?|(-)?(0|[1-9][0-9]*)|\"([^\"\\\\\\x00-\\x1F\\x7F-\\x9F]|\\\\[\"\\\\])*\"|\\\x7b[ ]?(\"([^\"\\\\\\x00-\\x1F\\x7F-\\x9F]|\\\\[\"\\\\])*\"[ ]?:[ ]?(\"([^\"\\\\\\x00-\\x1F\\x7F-\\x9F]|\\\\[\"\\\\])*\"|((-)?(0|[1-9][0-9]*))(\\.[0-9]+)?([eE][+-][0-9]+)?|(true|false)|null)([ ]?,[ ]?\"([^\"\\\\\\x00-\\x1F\\x7F-\\x9F]|\\\\[\"\\\\])*\"[ ]?:[ ]?(\"([^\"\\\\\\x00-\\x1F\\x7F-\\x9F]|\\\\[\"\\\\])*\"|((-)?(0|[1-9][0-9]*))(\\.[0-9]+)?([eE][+-][0-9]+)?|(true|false)|null))\x7b\x7b0,\x7d\x7d)?[ ]?\x7d|\\[[ ]?(((true|false)|null|((-)?(0|[1-9][0-9]*))(\\.[0-9]+)?([eE][+-][0-9]+)?|(-)?(0|[1-9][0-9]*)|\"([^\"\\\\\\x00-\\x1F\\x7F-\\x9F]|\\\\[\"\\\\])*\")(,[ ]?((true|false)|null|((-)?(0|[1-9][0-9]*))(\\.[0-9]+)?([eE][+-][0-9]+)?|(-)?(0|[1-9][0-9]*)|\"([^\"\\\\\\x00-\\x1F\\x7F-\\x9F]|\\\\[\"\\\\])*\"))\x7b0,\x7d)?[ ]?\\])(,[ ]?((true|false)|null|((-)?(0|[1-9][0-9]*))(\\.[0-9]+)?([eE][+-][0-9]+)?|(-)?(0|[1-9][0-9]*)|\"([^\"\\\\\\x00-\\x1F\\x7F-\\x9F]|\\\\[\"\\\\])*\"|\\\x7b[ ]?(\"([^\"\\\\\\x00-\\x1F\\x7F-\\x9F]|\\\\[\"\\\\])*\"[ ]?:[ ]?(\"([^\"\\\\\\x00-\\x1F\\x7F-\\x9F]|\\\\[\"\\\\])*\"|((-)?(0|[1-9][0-9]*))(\\.[0-9]+)?([eE][+-][0-9]+)?|(true|false)|null)([ ]?,[ ]?\"([^\"\\\\\\x00-\\x1F\\x7F-\\x9F]|\\\\[\"\\\\])*\"[ ]?:[ ]?(\"([^\"\\\\\\x00-\\x1F\\x7F-\\x9F]|\\\\[\"\\\\])*\"|((-)?(0|[1-9][0-9]*))(\\.[0-9]+)?([eE][+-][0-9]+)?|(true|false)|null))\x7b\x7b0,\x7d\x7d)?[ ]?\x7d|\\[[ ]?(((true|false)|null|((-)?(0|[1-9][0-9]*))(\\.[0-9]+)?([eE][+-][0-9]+)?|(-)?(0|[1-9][0-9]*)|\"([^\"\\\\\\x00-\\x1F\\x7F-\\x9F]|\\\\[\"\\\\])*\")(,[ ]?((true|false)|null|((-)?(0|[1-9][0-9]*))(\\.[0-9]+)?([eE][+-][0-9]+)?|(-)?(0|[1-9][0-9]*)|\"([^\"\\\\\\x00-\\x1F\\x7F-\\x9F]|\\\\[\"\\\\])*\"))\x7b0,\x7d)?[ ]?\\]))\x7b0,\x7d)?[ ]?\\])(,[ ]?((true|false)|null|((-)?(0|[1-9][0-9]*))(\\.[0-9]+)?([eE][+-][0-9]+)?|(-)?(0|[1-9][0-9]*)|\"([^\"\\\\\\x00-\\x1F\\x7F-\\x9F]|\\\\[\"\\\\])*\"|\\\x7b[ ]?(\"([^\"\\\\\\x00-\\x1F\\x7F-\\x9F]|\\\\[\"\\\\])*\"[ ]?:[ ]?(\"([^\"\\\\\\x00-\\x1F\\x7F-\\x9F]|\\\\[\"\\\\])*\"|((-)?(0|[1-9][0-9]*))(\\.[0-9]+)?([eE][+-][0-9]+)?|(true|false)|null|\\\x7b[ ]?(\"([^\"\\\\\\x00-\\x1F\\x7F-\\x9F]|\\\\[\"\\\\])*\"[ ]?:[ ]?(\"([^\"\\\\\\x00-\\x1F\\x7F-\\x9F]|\\\\[\"\\\\])*\"|((-)?(0|[1-9][0-9]*))(\\.[0-9]+)?([eE][+-][0-9]+)?|(true|false)|null)([ ]?,[ ]?\"([^\"\\\\\\x00-\\x1F\\x7F-\\x9F]|\\\\[\"\\\\])*\"[ ]?:[ ]?(\"([^\"\\\\\\x00-\\x1F\\x7F-\\x9F]|\\\\[\"\\\\])*\"|((-)?(0|[1-9][0-9]*))(\\.[0-9]+)?([eE][+-][0-9]+)?|(true|false)|null))\x7b\x7b0,\x7d\x7d)?[ ]?\x7d|\\[[ ]?(((true|false)|null|((-)?(0|[1-9][0-9]*))(\\.[0-9]+)?([eE][+-][0-9]+)?|(-)?(0|[1-9][0-9]*)|\"([^\"\\\\\\x00-\\x1F\\x7F-\\x9F]|\\\\[\"\\\\])*\")(,[ ]?((true|false)|null|((-)?(0|[1-9][0-9]*))(\\.[0-9]+)?([eE][+-][0-9]+)?|(-)?(0|[1-9][0-9]*)|\"([^\"\\\\\\x00-\\x1F\\x7F-\\x9F]|\\\\[\"\\\\])*\"))\x7b0,\x7d)?[ ]?\\])([ ]?,[ ]?\"([^\"\\\\\\x00-\\x1F\\x7F-\\x9F]|\\\\[\"\\\\])*\"[ ]?:[ ]?(\"([^\"\\\\\\x00-\\x1F\\x7F-\\x9F]|\\\\[\"\\\\])*\"|((-)?(0|[1-9][0-9]*))(\\.[0-9]+)?([eE][+-][0-9]+)?|(true|false)|null|\\\x7b[ ]?(\"([^\"\\\\\\x00-\\x1F\\x7F-\\x9F]|\\\\[\"\\\\])*\"[ ]?:[ ]?(\"([^\"\\\\\\x00-\\x1F\\x7F-\\x9F]|\\\\[\"\\\\])*\"|((-)?(0|[1-9][0-9]*))(\\.[0-9]+)?([eE][+-][0-9]+)?|(true|false)|null)([ ]?,[ ]?\"([^\"\\\\\\x00-\\x1F\\x7F-\\x9F]|\\\\[\"\\\\])*\"[ ]?:[ ]?(\"([^\"\\\\\\x00-\\x1F\\x7F-\\x9F]|\\\\[\"\\\\])*\"|((-)?(0|[1-9][0-9]*))(\\.[0-9]+)?([eE][+-][0-9]+)?|(true|false)|null))\x7b\x7b0,\x7d\x7d)?[ ]?\x7d|\\[[ ]?(((true|false)|null|((-)?(0|[1-9][0-9]*))(\\.[0-9]+)?([eE][+-][0-9]+)?|(-)?(0|[1-9][0-9]*)|\"([^\"\\\\\\x00-\\x1F\\x7F-\\x9F]|\\\\[\"\\\\])*\")(,[ ]?((true|false)|null|((-)?(0|[1-9][0-9]*))(\\.[0-9]+)?([eE][+-][0-9]+)?|(-)?(0|[1-9][0-9]*)|\"([^\"\\\\\\x00-\\x1F\\x7F-\\x9F]|\\\\[\"\\\\])*\"))\x7b0,\x7d)?[ ]?\\]))\x7b\x7b0,\x7d\x7d)?[ ]?\x7d|\\[[ ]?(((true|false)|null|((-)?(0|[1-9][0-9]*))(\\.[0-9]+)?([eE][+-][0-9]+)?|(-)?(0|[1-9][0-9]*)|\"([^\"\\\\\\x00-\\x1F\\x7F-\\x9F]|\\\\[\"\\\\])*\"|\\\x7b[ ]?(\"([^\"\\\\\\x00-\\x1F\\x7F-\\x9F]|\\\\[\"\\\\])*\"[ ]?:[ ]?(\"([^\"\\\\\\x00-\\x1F\\x7F-\\x9F]|\\\\[\"\\\\])*\"|((-)?(0|[1-9][0-9]*))(\\.[0-9]+)?([eE][+-][0-9]+)?|(true|false)|null)([ ]?,[ ]?\"([^\"\\\\\\x00-\\x1F\\x7F-\\x9F]|\\\\[\"\\\\])*\"[ ]?:[ ]?(\"([^\"\\\\\\x00-\\x1F\\x7F-\\x9F]|\\\\[\"\\\\])*\"|((-)?(0|[1-9][0-9]*))(\\.[0-9]+)?([eE][+-][0-9]+)?|(true|false)|null))\x7b\x7b0,\x7d\x7d)?[ ]?\x7d|\\[[ ]?(((true|false)|null|((-)?(0|[1-9][0-9]*))(\\.[0-9]+)?([eE][+-][0-9]+)?|(-)?(0|[1-9][0-9]*)|\"([^\"\\\\\\x00-\\x1F\\x7F-\\x9F]|\\\\[\"\\\\])*\")(,[ ]?((true|false)|null|((-)?(0|[1-9][0-9]*))(\\.[0-9]+)?([eE][+-][0-9]+)?|(-)?(0|[1-9][0-9]*)|\"([^\"\\\\\\x00-\\x1F\\x7F-\\x9F]|\\\\[\"\\\\])*\"))\x7b0,\x7d)?[ ]?\\])(,[ ]?((true|false)|null|((-)?(0|[1-9][0-9]*))(\\.[0-9]+)?([eE][+-][0-9]+)?|(-)?(0|[1-9][0-9]*)|\"([^\"\\\\\\x00-\\x1F\\x7F-\\x9F]|\\\\[\"\\\\])*\"|\\\x7b[ ]?(\"([^\"\\\\\\x00-\\x1F\\x7F-\\x9F]|\\\\[\"\\\\])*\"[ ]?:[ ]?(\"([^\"\\\\\\x00-\\x1F\\x7F-\\x9F]|\\\\[\"\\\\])*\"|((-)?(0|[1-9][0-9]*))(\\.[0-9]+)?([eE][+-][0-9]+)?|(true|false)|null)([ ]?,[ ]?\"([^\"\\\\\\x00-\\x1F\\x7F-\\x9F]|\\\\[\"\\\\])*\"[ ]?:[ ]?(\"([^\"\\\\\\x00-\\x1F\\x7F-\\x9F]|\\\\[\"\\\\])*\"|((-)?(0|[1-9][0-9]*))(\\.[0-9]+)?([eE][+-][0-9]+)?|(true|false)|null))\x7b\x7b0,\x7d\x7d)?[ ]?\x7d|\\[[ ]?(((true|false)|null|((-)?(0|[1-9][0-9]*))(\\.[0-9]+)?([eE][+-][0-9]+)?|(-)?(0|[1-9][0-9]*)|\"([^\"\\\\\\x00-\\x1F\\x7F-\\x9F]|\\\\[\"\\\\])*\")(,[ ]?((true|false)|null|((-)?(0|[1-9][0-9]*))(\\.[0-9]+)?([eE][+-][0-9]+)?|(-)?(0|[1-9][0-9]*)|\"([^\"\\\\\\x00-\\x1F\\x7F-\\x9F]|\\\\[\"\\\\])*\"))\x7b0,\x7d)?[ ]?\\]))\x7b0,\x7d)?[ ]?\\]))\x7b0,\x7d)?[ ]?\\])|(\\\x7b[ ]?(\"([^\"\\\\\\x00-\\x1F\\x7F-\\x9F]|\\\\[\"\\\\])*\"[ ]?:[ ]?(\"([^\"\\\\\\x00-\\x1F\\x7F-\\x9F]|\\\\[\"\\\\])*\"|((-)?(0|[1-9][0-9]*))(\\.[0-9]+)?([eE][+-][0-9]+)?|(true|false)|null|\\\x7b[ ]?(\"([^\"\\\\\\x00-\\x1F\\x7F-\\x9F]|\\\\[\"\\\\])*\"[ ]?:[ ]?(\"([^\"\\\\\\x00-\\x1F\\x7F-\\x9F]|\\\\[\"\\\\])*\"|((-)?(0|[1-9][0-9]*))(\\.[0-9]+)?([eE][+-][0-9]+)?|(true|false)|null|\\\x7b[ ]?(\"([^\"\\\\\\x00-\\x1F\\x7F-\\x9F]|\\\\[\"\\\\])*\"[ ]?:[ ]?(\"([^\"\\\\\\x00-\\x1F\\x7F-\\x9F]|\\\\[\"\\\\])*\"|((-)?(0|[1-9][0-9]*))(\\.[0-9]+)?([eE][+-][0-9]+)?|(true|false)|null)([ ]?,[ ]?\"([^\"\\\\\\x00-\\x1F\\x7F-\\x9F]|\\\\[\"\\\\])*\"[ ]?:[ ]?(\"([^\"\\\\\\x00-\\x1F\\x7F-\\x9F]|\\\\[\"\\\\])*\"|((-)?(0|[1-9][0-9]*))(\\.[0-9]+)?([eE][+-][0-9]+)?|(true|false)|null))\x7b\x7b0,\x7d\x7d)?[ ]?\x7d|\\[[ ]?(((true|false)|null|((-)?(0|[1-9][0-9]*))(\\.[0-9]+)?([eE][+-][0-9]+)?|(-)?(0|[1-9][0-9]*)|\"([^\"\\\\\\x00-\\x1F\\x7F-\\x9F]|\\\\[\"\\\\])*\")(,[ ]?((true|false)|null|((-)?(0|[1-9][0-9]*))(\\.[0-9]+)?([eE][+-][0-9]+)?|(-)?(0|[1-9][0-9]*)|\"([^\"\\\\\\x00-\\x1F\\x7F-\\x9F]|\\\\[\"\\\\])*\"))\x7b0,\x7d)?[ ]?\\])([ ]?,[ ]?\"([^\"\\\\\\x00-\\x1F\\x7F-\\x9F]|\\\\[\"\\\\])*\"[ ]?:[ ]?(\"([^\"\\\\\\x00-\\x1F\\x7F-\\x9F]|\\\\[\"\\\\])*\"|((-)?(0|[1-9][0-9]*))(\\.[0-9]+)?([eE][+-][0-9]+)?|(true|false)|null|\\\x7b[ ]?(\"([^\"\\\\\\x00-\\x1F\\x7F-\\x9F]|\\\\[\"\\\\])*\"[ ]?:[ ]?(\"([^\"\\\\\\x00-\\x1F\\x7F-\\x9F]|\\\\[\"\\\\])*\"|((-)?(0|[1-9][0-9]*))(\\.[0-9]+)?([eE][+-][0-9]+)?|(true|false)|null)([ ]?,[ ]?\"([^\"\\\\\\x00-\\x1F\\x7F-\\x9F]|\\\\[\"\\\\])*\"[ ]?:[ ]?(\"([^\"\\\\\\x00-\\x1F\\x7F-\\x9F]|\\\\[\"\\\\])*\"|((-)?(0|[1-9][0-9]*))(\\.[0-9]+)?([eE][+-][0-9]+)?|(true|false)|null))\x7b\x7b0,\x7d\x7d)?[ ]?\x7d|\\[[ ]?(((true|false)|null|((-)?(0|[1-9][0-9]*))(\\.[0-9]+)?([eE][+-][0-9]+)?|(-)?(0|[1-9][0-9]*)|\"([^\"\\\\\\x00-\\x1F\\x7F-\\x9F]|\\\\[\"\\\\])*\")(,[ ]?((true|false)|null|((-)?(0|[1-9][0-9]*))(\\.[0-9]+)?([eE][+-][0-9]+)?|(-)?(0|[1-9][0-9]*)|\"([^\"\\\\\\x00-\\x1F\\x7F-\\x9F]|\\\\[\"\\\\])*\"))\x7b0,\x7d)?[ ]?\\]))\x7b\x7b0,\x7d\x7d)?[ ]?\x7d|\\[[ ]?(((true|false)|null|((-)?(0|[1-9][0-9]*))(\\.[0-9]+)?([eE][+-][0-9]+)?|(-)?(0|[1-9][0-9]*)|\"([^\"\\\\\\x00-\\x1F\\x7F-\\x9F]|\\\\[\"\\\\])*\"|\\\x7b[ ]?(\"([^\"\\\\\\x00-\\x1F\\x7F-\\x9F]|\\\\[\"\\\\])*\"[ ]?:[ ]?(\"([^\"\\\\\\x00-\\x1F\\x7F-\\x9F]|\\\\[\"\\\\])*\"|((-)?(0|[1-9][0-9]*))(\\.[0-9]+)?([eE][+-][0-9]+)?|(true|false)|null)([ ]?,[ ]?\"([^\"\\\\\\x00-\\x1F\\x7F-\\x9F]|\\\\[\"\\\\])*\"[ ]?:[ ]?(\"([^\"\\\\\\x00-\\x1F\\x7F-\\x9F]|\\\\[\"\\\\])*\"|((-)?(0|[1-9][0-9]*))(\\.[0-9]+)?([eE][+-][0-9]+)?|(true|false)|null))\x7b\x7b0,\x7d\x7d)?[ ]?\x7d|\\[[ ]?(((true|false)|null|((-)?(0|[1-9][0-9]*))(\\.[0-9]+)?([eE][+-][0-9]+)?|(-)?(0|[1-9][0-9]*)|\"([^\"\\\\\\x00-\\x1F\\x7F-\\x9F]|\\\\[\"\\\\])*\")(,[ ]?((true|false)|null|((-)?(0|[1-9][0-9]*))(\\.[0-9]+)?([eE][+-][0-9]+)?|(-)?(0|[1-9][0-9]*)|\"([^\"\\\\\\x00-\\x1F\\x7F-\\x9F]|\\\\[\"\\\\])*\"))\x7b0,\x7d)?[ ]?\\])(,[ ]?((true|false)|null|((-)?(0|[1-9][0-9]*))(\\.[0-9]+)?([eE][+-][0-9]+)?|(-)?(0|[1-9][0-9]*)|\"([^\"\\\\\\x00-\\x1F\\x7F-\\x9F]|\\\\[\"\\\\])*\"|\\\x7b[ ]?(\"([^\"\\\\\\x00-\\x1F\\x7F-\\x9F]|\\\\[\"\\\\])*\"[ ]?:[ ]?(\"([^\"\\\\\\x00-\\x1F\\x7F-\\x9F]|\\\\[\"\\\\])*\"|((-)?(0|[1-9][0-9]*))(\\.[0-9]+)?([eE][+-][0-9]+)?|(true|false)|null)([ ]?,[ ]?\"([^\"\\\\\\x00-\\x1F\\x7F-\\x9F]|\\\\[\"\\\\])*\"[ ]?:[ ]?(\"([^\"\\\\\\x00-\\x1F\\x7F-\\x9F]|\\\\[\"\\\\])*\"|((-)?(0|[1-9][0-9]*))(\\.[0-9]+)?([eE][+-][0-9]+)?|(true|false)|null))\x7b\x7b0,\x7d\x7d)?[ ]?\x7d|\\[[ ]?(((true|false)|null|((-)?(0|[1-9][0-9]*))(\\.[0-9]+)?([eE][+-][0-9]+)?|(-)?(0|[1-9][0-9]*)|\"([^\"\\\\\\x00-\\x1F\\x7F-\\x9F]|\\\\[\"\\\\])*\")(,[ ]?((true|false)|null|((-)?(0|[1-9][0-9]*))(\\.[0-9]+)?([eE][+-][0-9]+)?|(-)?(0|[1-9][0-9]*)|\"([^\"\\\\\\x00-\\x1F\\x7F-\\x9F]|\\\\[\"\\\\])*\"))\x7b0,\x7d)?[ ]?\\]))\x7b0,\x7d)?[ ]?\\])([ ]?,[ ]?\"([^\"\\\\\\x00-\\x1F\\x7F-\\x9F]|\\\\[\"\\\\])*\"[ ]?:[ ]?(\"([^\"\\\\\\x00-\\x1F\\x7F-\\x9F]|\\\\[\"\\\\])*\"|((-)?(0|[1-9][0-9]*))(\\.[0-9]+)?([eE][+-][0-9]+)?|(true|false)|null|\\\x7b[ ]?(\"([^\"\\\\\\x00-\\x1F\\x7F-\\x9F]|\\\\[\"\\\\])*\"[ ]?:[ ]?(\"([^\"\\\\\\x00-\\x1F\\x7F-\\x9F]|\\\\[\"\\\\])*\"|((-)?(0|[1-9][0-9]*))(\\.[0-9]+)?([eE][+-][0-9]+)?|(true|false)|null|\\\x7b[ ]?(\"([^\"\\\\\\x00-\\x1F\\x7F-\\x9F]|\\\\[\"\\\\])*\"[ ]?:[ ]?(\"([^\"\\\\\\x00-\\x1F\\x7F-\\x9F]|\\\\[\"\\\\])*\"|((-)?(0|[1-9][0-9]*))(\\.[0-9]+)?([eE][+-][0-9]+)?|(true|false)|null)([ ]?,[ ]?\"([^\"\\\\\\x00-\\x1F\\x7F-\\x9F]|\\\\[\"\\\\])*\"[ ]?:[ ]?(\"([^\"\\\\\\x00-\\x1F\\x7F-\\x9F]|\\\\[\"\\\\])*\"|((-)?(0|[1-9][0-9]*))(\\.[0-9]+)?([eE][+-][0-9]+)?|(true|false)|null))\x7b\x7b0,\x7d\x7d)?[ ]?\x7d|\\[[ ]?(((true|false)|null|((-)?(0|[1-9][0-9]*))(\\.[0-9]+)?([eE][+-][0-9]+)?|(-)?(0|[1-9][0-9]*)|\"([^\"\\\\\\x00-\\x1F\\x7F-\\x9F]|\\\\[\"\\\\])*\")(,[ ]?((true|false)|null|((-)?(0|[1-9][0-9]*))(\\.[0-9]+)?([eE][+-][0-9]+)?|(-)?(0|[1-9][0-9]*)|\"([^\"\\\\\\x00-\\x1F\\x7F-\\x9F]|\\\\[\"\\\\])*\"))\x7b0,\x7d)?[ ]?\\])([ ]?,[ ]?\"([^\"\\\\\\x00-\\x1F\\x7F-\\x9F]|\\\\[\"\\\\])*\"[ ]?:[ ]?(\"([^\"\\\\\\x00-\\x1F\\x7F-\\x9F]|\\\\[\"\\\\])*\"|((-)?(0|[1-9][0-9]*))(\\.[0-9]+)?([eE][+-][0-9]+)?|(true|false)|null|\\\x7b[ ]?(\"([^\"\\\\\\x00-\\x1F\\x7F-\\x9F]|\\\\[\"\\\\])*\"[ ]?:[ ]?(\"([^\"\\\\\\x00-\\x1F\\x7F-\\x9F]|\\\\[\"\\\\])*\"|((-)?(0|[1-9][0-9]*))(\\.[0-9]+)?([eE][+-][0-9]+)?|(true|false)|null)([ ]?,[ ]?\"([^\"\\\\\\x00-\\x1F\\x7F-\\x9F]|\\\\[\"\\\\])*\"[ ]?:[ ]?(\"([^\"\\\\\\x00-\\x1F\\x7F-\\x9F]|\\\\[\"\\\\])*\"|((-)?(0|[1-9][0-9]*))(\\.[0-9]+)?([eE][+-][0-9]+)?|(true|false)|null))\x7b\x7b0,\x7d\x7d)?[ ]?\x7d|\\[[ ]?(((true|false)|null|((-)?(0|[1-9][0-9]*))(\\.[0-9]+)?([eE][+-][0-9]+)?|(-)?(0|[1-9][0-9]*)|\"([^\"\\\\\\x00-\\x1F\\x7F-\\x9F]|\\\\[\"\\\\])*\")(,[ ]?((true|false)|null|((-)?(0|[1-9][0-9]*))(\\.[0-9]+)?([eE][+-][0-9]+)?|(-)?(0|[1-9][0-9]*)|\"([^\"\\\\\\x00-\\x1F\\x7F-\\x9F]|\\\\[\"\\\\])*\"))\x7b0,\x7d)?[ ]?\\]))\x7b\x7b0,\x7d\x7d)?[ ]?\x7d|\\[[ ]?(((true|false)|null|((-)?(0|[1-9][0-9]*))(\\.[0-9]+)?([eE][+-][0-9]+)?|(-)?(0|[1-9][0-9]*)|\"([^\"\\\\\\x00-\\x1F\\x7F-\\x9F]|\\\\[\"\\\\])*\"|\\\x7b[ ]?(\"([^\"\\\\\\x00-\\x1F\\x7F-\\x9F]|\\\\[\"\\\\])*\"[ ]?:[ ]?(\"([^\"\\\\\\x00-\\x1F\\x7F-\\x9F]|\\\\[\"\\\\])*\"|((-)?(0|[1-9][0-9]*))(\\.[0-9]+)?([eE][+-][0-9]+)?|(true|false)|null)([ ]?,[ ]?\"([^\"\\\\\\x00-\\x1F\\x7F-\\x9F]|\\\\[\"\\\\])*\"[ ]?:[ ]?(\"([^\"\\\\\\x00-\\x1F\\x7F-\\x9F]|\\\\[\"\\\\])*\"|((-)?(0|[1-9][0-9]*))(\\.[0-9]+)?([eE][+-][0-9]+)?|(true|false)|null))\x7b\x7b0,\x7d\x7d)?[ ]?\x7d|\\[[ ]?(((true|false)|null|((-)?(0|[1-9][0-9]*))(\\.[0-9]+)?([eE][+-][0-9]+)?|(-)?(0|[1-9][0-9]*)|\"([^\"\\\\\\x00-\\x1F\\x7F-\\x9F]|\\\\[\"\\\\])*\")(,[ ]?((true|false)|null|((-)?(0|[1-9][0-9]*))(\\.[0-9]+)?([eE][+-][0-9]+)?|(-)?(0|[1-9][0-9]*)|\"([^\"\\\\\\x00-\\x1F\\x7F-\\x9F]|\\\\[\"\\\\])*\"))\x7b0,\x7d)?[ ]?\\])(,[ ]?((true|false)|null|((-)?(0|[1-9][0-9]*))(\\.[0-9]+)?([eE][+-][0-9]+)?|(-)?(0|[1-9][0-9]*)|\"([^\"\\\\\\x00-\\x1F\\x7F-\\x9F]|\\\\[\"\\\\])*\"|\\\x7b[ ]?(\"([^\"\\\\\\x00-\\x1F\\x7F-\\x9F]|\\\\[\"\\\\])*\"[ ]?:[ ]?(\"([^\"\\\\\\x00-\\x1F\\x7F-\\x9F]|\\\\[\"\\\\])*\"|((-)?(0|[1-9][0-9]*))(\\.[0-9]+)?([eE][+-][0-9]+)?|(true|false)|null)([ ]?,[ ]?\"([^\"\\\\\\x00-\\x1F\\x7F-\\x9F]|\\\\[\"\\\\])*\"[ ]?:[ ]?(\"([^\"\\\\\\x00-\\x1F\\x7F-\\x9F]|\\\\[\"\\\\])*\"|((-)?(0|[1-9][0-9]*))(\\.[0-9]+)?([eE][+-][0-9]+)?|(true|false)|null))\x7b\x7b0,\x7d\x7d)?[ ]?\x7d|\\[[ ]?(((true|false)|null|((-)?(0|[1-9][0-9]*))(\\.[0-9]+)?([eE][+-][0-9]+)?|(-)?(0|[1-9][0-9]*)|\"([^\"\\\\\\x00-\\x1F\\x7F-\\x9F]|\\\\[\"\\\\])*\")(,[ ]?((true|false)|null|((-)?(0|[1-9][0-9]*))(\\.[0-9]+)?([eE][+-][0-9]+)?|(-)?(0|[1-9][0-9]*)|\"([^\"\\\\\\x00-\\x1F\\x7F-\\x9F]|\\\\[\"\\\\])*\"))\x7b0,\x7d)?[ ]?\\]))\x7b0,\x7d)?[ ]?\\]))\x7b\x7b0,\x7d\x7d)?[ ]?\x7d)"


/-- The pattern the compiler emits for an array schema with a
caller-supplied `depth 0`, under the default whitespace configuration
(checked against `toRegexFuel` below): only the five scalar alternatives
appear. -/
def c10depth0 : String :=
  "\\[[ ]?(((true|false)|null|((-)?(0|[1-9][0-9]*))(\\.[0-9]+)?([eE][+-][0-9]+)?|(-)?(0|[1-9][0-9]*)|\"([^\"\\\\\\x00-\\x1F\\x7F-\\x9F]|\\\\[\"\\\\])*\")(,[ ]?((true|false)|null|((-)?(0|[1-9][0-9]*))(\\.[0-9]+)?([eE][+-][0-9]+)?|(-)?(0|[1-9][0-9]*)|\"([^\"\\\\\\x00-\\x1F\\x7F-\\x9F]|\\\\[\"\\\\])*\"))\x7b0,\x7d)?[ ]?\\]"

/-- The first 300 characters of the pattern the compiler emits for the
same array schema without a `depth` member (default budget 2): the
object alternative appears among the item alternatives. -/
def c10def300 : String :=
  "\\[[ ]?(((true|false)|null|((-)?(0|[1-9][0-9]*))(\\.[0-9]+)?([eE][+-][0-9]+)?|(-)?(0|[1-9][0-9]*)|\"([^\"\\\\\\x00-\\x1F\\x7F-\\x9F]|\\\\[\"\\\\])*\"|\\\x7b[ ]?(\"([^\"\\\\\\x00-\\x1F\\x7F-\\x9F]|\\\\[\"\\\\])*\"[ ]?:[ ]?(\"([^\"\\\\\\x00-\\x1F\\x7F-\\x9F]|\\\\[\"\\\\])*\"|((-)?(0|[1-9][0-9]*))(\\.[0-9]+)?([eE][+-][0-9]+)?|(true|false)|null|\\\x7b[ ]?"

/-- Serialization of the object with key `b` before key `a`. -/
def docBA : String := "\x7b\"b\": \"y\", \"a\": \"x\"\x7d"

/-- Serialization of the object with key `a` before key `b` (declaration
order of `schemaAB`). -/
def docAB : String := "\x7b\"a\": \"x\", \"b\": \"y\"\x7d"



/- Size and depth-potential measures used to prove the dispatcher
terminates.  `szV` is a structural size.  `potObj` is the stack budget an
object node can cause the compiler to spend on synthesized (non-subterm)
schemas: `depthOf + 1` for nodes carrying an object/array type tag (whose
expansion builds depth-decremented schemas), and a constant above the
default budget for the empty object (whose expansion builds the seven
fresh type schemas); `Bv` takes the maximum potential over a whole value.
Every recursive call of the dispatcher strictly decreases the pair
`(Bv, szV)` lexicographically. -/

mutual

def szV : JsonValue → Nat
  | .null => 1
  | .bool _ => 1
  | .num _ => 1
  | .str _ => 1
  | .arr xs => 1 + szL xs
  | .obj kvs => 1 + szP kvs

def szL : List JsonValue → Nat
  | [] => 0
  | x :: xs => 1 + szV x + szL xs

def szP : List (String × JsonValue) → Nat
  | [] => 0
  | kv :: kvs => 1 + szV kv.2 + szP kvs

end

def potObj (kvs : List (String × JsonValue)) : Nat :=
  if kvs.isEmpty then 4
  else match getKey? kvs "type" with
    | some (.str t) => if t = "object" || t = "array" then depthOf kvs + 1 else 0
    | _ => 0

mutual

def Bv : JsonValue → Nat
  | .arr xs => BvL xs
  | .obj kvs => max (potObj kvs) (BvP kvs)
  | _ => 0

def BvL : List JsonValue → Nat
  | [] => 0
  | x :: xs => max (Bv x) (BvL xs)

def BvP : List (String × JsonValue) → Nat
  | [] => 0
  | kv :: kvs => max (Bv kv.2) (BvP kvs)

end


/- Child-schema lists used by the termination proof: for each keyword the
values the corresponding handler may recurse into. -/

def arrKeyChildren (kvs : List (String × JsonValue)) (k : String) : List JsonValue :=
  match getKey? kvs k with
  | some (.arr l) => l
  | _ => []

def propsChildren (kvs : List (String × JsonValue)) : List JsonValue :=
  match (getKey? kvs "properties").bind JsonValue.as_object with
  | some props => props.map Prod.snd
  | none => []

def typeChildren (kvs : List (String × JsonValue)) : List JsonValue :=
  (match getKey? kvs "items" with
    | some it => [it]
    | none => []) ++
  (match getKey? kvs "additionalProperties" with
    | some ap => [ap]
    | none => []) ++
  (match getKey? kvs "type" with
    | some (.str "array") => arrayLegalTypes (depthOf kvs)
    | some (.str "object") => [.obj [("anyOf", .arr (objectLegalTypes (depthOf kvs)))]]
    | _ => [])

/- Correctness of the derivative matcher with respect to `RMatch`. -/

theorem RMatch_emp {xs : List Char} : ¬ RMatch .emp xs := fun h => nomatch h

theorem RMatch_eps_iff {xs : List Char} : RMatch .eps xs ↔ xs = [] := by
  constructor
  · intro h; cases h; rfl
  · rintro rfl; exact .eps

theorem RMatch_cls_iff {neg : Bool} {ranges : List (Char × Char)} {xs : List Char} :
    RMatch (.cls neg ranges) xs ↔ ∃ c, xs = [c] ∧ clsMatch neg ranges c = true := by
  constructor
  · intro h; cases h with
    | cls hc => exact ⟨_, rfl, hc⟩
  · rintro ⟨c, rfl, hc⟩; exact .cls hc

theorem RMatch_cat_iff {r s : Regex} {xs : List Char} :
    RMatch (.cat r s) xs ↔ ∃ ys zs, xs = ys ++ zs ∧ RMatch r ys ∧ RMatch s zs := by
  constructor
  · intro h; cases h with
    | cat hr hs => exact ⟨_, _, rfl, hr, hs⟩
  · rintro ⟨ys, zs, rfl, hr, hs⟩; exact .cat hr hs

theorem RMatch_alt_iff {r s : Regex} {xs : List Char} :
    RMatch (.alt r s) xs ↔ RMatch r xs ∨ RMatch s xs := by
  constructor
  · intro h; cases h with
    | altL h => exact Or.inl h
    | altR h => exact Or.inr h
  · rintro (h | h)
    · exact .altL h
    · exact .altR h

theorem RMatch_star_inv {q : Regex} {w : List Char} (h : RMatch q w) :
    ∀ {r : Regex}, q = .star r →
      w = [] ∨ ∃ ys zs, ys ≠ [] ∧ w = ys ++ zs ∧ RMatch r ys ∧ RMatch (.star r) zs := by
  induction h with
  | eps => intro r hq; exact absurd hq (by simp)
  | cls _ => intro r hq; exact absurd hq (by simp)
  | cat _ _ _ _ => intro r hq; exact absurd hq (by simp)
  | altL _ _ => intro r hq; exact absurd hq (by simp)
  | altR _ _ => intro r hq; exact absurd hq (by simp)
  | starNil => intro r _; exact Or.inl rfl
  | @starCons r0 xs ys h1 h2 ih1 ih2 =>
      intro r hq
      injection hq with hr0
      subst hr0
      by_cases hxs : xs = []
      · subst hxs
        rw [List.nil_append]
        exact ih2 rfl
      · exact Or.inr ⟨xs, ys, hxs, rfl, h1, h2⟩

theorem RMatch_star_cons_iff {r : Regex} {c : Char} {xs : List Char} :
    RMatch (.star r) (c :: xs) ↔
      ∃ ys zs, xs = ys ++ zs ∧ RMatch r (c :: ys) ∧ RMatch (.star r) zs := by
  constructor
  · intro h
    rcases RMatch_star_inv h rfl with h0 | ⟨ys, zs, hne, heq, h1, h2⟩
    · exact absurd h0 (by simp)
    · cases ys with
      | nil => exact absurd rfl hne
      | cons y ys' =>
          rw [List.cons_append] at heq
          injection heq with hy hrest
          subst hy
          subst hrest
          exact ⟨ys', zs, rfl, h1, h2⟩
  · rintro ⟨ys, zs, rfl, h1, h2⟩
    exact (RMatch.starCons h1 h2 : RMatch _ ((c :: ys) ++ zs))

theorem nullable_iff : ∀ r : Regex, nullable r = true ↔ RMatch r []
  | .emp => by
      simp only [nullable, Bool.false_eq_true, false_iff]
      exact RMatch_emp
  | .eps => by
      simp only [nullable, true_iff]
      exact .eps
  | .cls neg ranges => by
      simp only [nullable, Bool.false_eq_true, false_iff, RMatch_cls_iff]
      rintro ⟨c, hc, _⟩
      exact absurd hc (by simp)
  | .cat r s => by
      rw [show nullable (.cat r s) = (nullable r && nullable s) from rfl,
        Bool.and_eq_true, nullable_iff r, nullable_iff s, RMatch_cat_iff]
      constructor
      · rintro ⟨hr, hs⟩; exact ⟨[], [], rfl, hr, hs⟩
      · rintro ⟨ys, zs, h, hr, hs⟩
        rcases List.append_eq_nil.mp h.symm with ⟨rfl, rfl⟩
        exact ⟨hr, hs⟩
  | .alt r s => by
      rw [show nullable (.alt r s) = (nullable r || nullable s) from rfl,
        Bool.or_eq_true, nullable_iff r, nullable_iff s, RMatch_alt_iff]
  | .star r => by
      simp only [nullable, true_iff]
      exact .starNil

theorem RMatch_catS_iff {r s : Regex} {xs : List Char} :
    RMatch (catS r s) xs ↔ RMatch (.cat r s) xs := by
  unfold catS
  split_ifs with h1 h2 h3 h4
  · subst h1
    constructor
    · intro h; exact absurd h RMatch_emp
    · intro h
      rcases RMatch_cat_iff.mp h with ⟨ys, zs, _, hr, _⟩
      exact absurd hr RMatch_emp
  · subst h2
    constructor
    · intro h; exact absurd h RMatch_emp
    · intro h
      rcases RMatch_cat_iff.mp h with ⟨ys, zs, _, _, hs⟩
      exact absurd hs RMatch_emp
  · subst h3
    constructor
    · intro h
      exact RMatch_cat_iff.mpr ⟨[], xs, rfl, .eps, h⟩
    · intro h
      rcases RMatch_cat_iff.mp h with ⟨ys, zs, heq, hr, hs⟩
      rw [RMatch_eps_iff] at hr
      subst hr
      rw [List.nil_append] at heq
      subst heq
      exact hs
  · subst h4
    constructor
    · intro h
      exact RMatch_cat_iff.mpr ⟨xs, [], (List.append_nil xs).symm, h, .eps⟩
    · intro h
      rcases RMatch_cat_iff.mp h with ⟨ys, zs, heq, hr, hs⟩
      rw [RMatch_eps_iff] at hs
      subst hs
      rw [List.append_nil] at heq
      subst heq
      exact hr
  · exact Iff.rfl

theorem RMatch_altS_iff {r s : Regex} {xs : List Char} :
    RMatch (altS r s) xs ↔ RMatch (.alt r s) xs := by
  unfold altS
  split_ifs with h1 h2
  · subst h1
    rw [RMatch_alt_iff]
    constructor
    · exact Or.inr
    · rintro (h | h)
      · exact absurd h RMatch_emp
      · exact h
  · subst h2
    rw [RMatch_alt_iff]
    constructor
    · exact Or.inl
    · rintro (h | h)
      · exact h
      · exact absurd h RMatch_emp
  · exact Iff.rfl

theorem derivR_iff : ∀ (r : Regex) (c : Char) (xs : List Char),
    RMatch (derivR r c) xs ↔ RMatch r (c :: xs)
  | .emp, c, xs => by
      simp only [derivR]
      exact ⟨fun h => absurd h RMatch_emp, fun h => absurd h RMatch_emp⟩
  | .eps, c, xs => by
      simp only [derivR]
      constructor
      · intro h; exact absurd h RMatch_emp
      · intro h
        rw [RMatch_eps_iff] at h
        exact absurd h (by simp)
  | .cls neg ranges, c, xs => by
      simp only [derivR]
      by_cases hc : clsMatch neg ranges c = true
      · rw [if_pos hc, RMatch_eps_iff, RMatch_cls_iff]
        constructor
        · rintro rfl; exact ⟨c, rfl, hc⟩
        · rintro ⟨d, hd, _⟩
          injection hd with h1 h2
      · rw [if_neg hc, RMatch_cls_iff]
        constructor
        · intro h; exact absurd h RMatch_emp
        · rintro ⟨d, hd, hmatch⟩
          injection hd with h1 h2
          subst h1
          exact absurd hmatch hc
  | .alt r s, c, xs => by
      simp only [derivR]
      rw [RMatch_altS_iff, RMatch_alt_iff, RMatch_alt_iff,
        derivR_iff r c xs, derivR_iff s c xs]
  | .cat r s, c, xs => by
      simp only [derivR]
      by_cases hn : nullable r = true
      · rw [if_pos hn, RMatch_altS_iff, RMatch_alt_iff, RMatch_catS_iff,
          RMatch_cat_iff, RMatch_cat_iff]
        constructor
        · rintro (⟨ys, zs, rfl, hr, hs⟩ | hs)
          · exact ⟨c :: ys, zs, rfl, (derivR_iff r c ys).mp hr, hs⟩
          · exact ⟨[], c :: xs, rfl, (nullable_iff r).mp hn,
              (derivR_iff s c xs).mp hs⟩
        · rintro ⟨ys, zs, heq, hr, hs⟩
          cases ys with
          | nil =>
              rw [List.nil_append] at heq
              subst heq
              exact Or.inr ((derivR_iff s c xs).mpr hs)
          | cons y ys' =>
              rw [List.cons_append] at heq
              injection heq with hy hrest
              subst hy
              subst hrest
              exact Or.inl ⟨ys', zs, rfl, (derivR_iff r c ys').mpr hr, hs⟩
      · rw [if_neg hn, RMatch_catS_iff, RMatch_cat_iff, RMatch_cat_iff]
        constructor
        · rintro ⟨ys, zs, rfl, hr, hs⟩
          exact ⟨c :: ys, zs, rfl, (derivR_iff r c ys).mp hr, hs⟩
        · rintro ⟨ys, zs, heq, hr, hs⟩
          cases ys with
          | nil =>
              exact absurd ((nullable_iff r).mpr hr) hn
          | cons y ys' =>
              rw [List.cons_append] at heq
              injection heq with hy hrest
              subst hy
              subst hrest
              exact ⟨ys', zs, rfl, (derivR_iff r c ys').mpr hr, hs⟩
  | .star r, c, xs => by
      simp only [derivR]
      rw [RMatch_catS_iff, RMatch_cat_iff, RMatch_star_cons_iff]
      constructor
      · rintro ⟨ys, zs, rfl, hr, hs⟩
        exact ⟨ys, zs, rfl, (derivR_iff r c ys).mp hr, hs⟩
      · rintro ⟨ys, zs, rfl, hr, hs⟩
        exact ⟨ys, zs, rfl, (derivR_iff r c ys).mpr hr, hs⟩

theorem rmatch_iff : ∀ (xs : List Char) (r : Regex), rmatch r xs = true ↔ RMatch r xs
  | [], r => by
      rw [show rmatch r [] = nullable r from rfl]
      exact nullable_iff r
  | c :: cs, r => by
      rw [show rmatch r (c :: cs) = rmatch (derivR r c) cs from rfl]
      rw [rmatch_iff cs (derivR r c)]
      exact derivR_iff r c cs

/- Shared lemmas about the embedding and the regex AST. -/

theorem toRegexFuel_obj (fuel : Nat) (kvs : List (String × JsonValue)) (ws : Option String) :
    toRegexFuel (fuel + 1) (.obj kvs) ws =
      if kvs.isEmpty then
        handle_empty_object (fun v => toRegexFuel fuel v (some (ws.getD WHITESPACE)))
          (ws.getD WHITESPACE)
      else
        match selectKeyword kvs with
        | some kw =>
            dispatchKeyword kw (fun v => toRegexFuel fuel v (some (ws.getD WHITESPACE)))
              kvs (ws.getD WHITESPACE)
        | none => .err "Unsupported JSON Schema structure" := rfl

theorem clsMatch_singleton {a c : Char} : clsMatch false [(a, a)] c = true ↔ c = a := by
  constructor
  · intro h
    have h' : a ≤ c ∧ c ≤ a := by simpa [clsMatch] using h
    exact le_antisymm h'.2 h'.1
  · rintro rfl
    simp [clsMatch]

theorem RMatch_lit_iff {a : Char} {s : List Char} : RMatch (litR a) s ↔ s = [a] := by
  rw [litR, RMatch_cls_iff]
  constructor
  · rintro ⟨c, rfl, hc⟩
    rw [clsMatch_singleton.mp hc]
  · rintro rfl
    exact ⟨a, rfl, clsMatch_singleton.mpr rfl⟩

theorem RMatch_opt_iff {r : Regex} {s : List Char} :
    RMatch (optR r) s ↔ s = [] ∨ RMatch r s := by
  rw [optR, RMatch_alt_iff, RMatch_eps_iff]

theorem containsKey_eq_false_iff {kvs : List (String × JsonValue)} {k : String} :
    containsKey kvs k = false ↔ getKey? kvs k = none := by
  rw [containsKey]
  cases getKey? kvs k <;> simp

theorem containsKey_eq_true_of_some {kvs : List (String × JsonValue)} {k : String}
    {v : JsonValue} (h : getKey? kvs k = some v) : containsKey kvs k = true := by
  rw [containsKey, h]; rfl

theorem validate_quantifiers_isErr (mn mx : Option Nat) (off : Nat) :
    (validate_quantifiers mn mx off).isErr = badPair mn mx off := by
  cases mn with
  | none =>
      cases mx <;> simp [validate_quantifiers, badPair, CompRes.isErr]
  | some a =>
      cases mx with
      | none => simp [validate_quantifiers, badPair, CompRes.isErr]
      | some b =>
          by_cases ha : a - off = 0 <;> by_cases hb : b - off = 0
          · simp [validate_quantifiers, nzNew, ha, hb, optNZlt, badPair, CompRes.isErr]
          · simp [validate_quantifiers, nzNew, ha, hb, optNZlt, badPair, CompRes.isErr]
          · simp [validate_quantifiers, nzNew, ha, hb, optNZlt, badPair, CompRes.isErr,
              Nat.pos_of_ne_zero ha]
          · by_cases hlt : b - off < a - off <;>
              simp [validate_quantifiers, nzNew, ha, hb, optNZlt, badPair,
                CompRes.isErr, hlt]

theorem validate_quantifiers_cases (mn mx : Option Nat) (off : Nat) :
    (∃ q, validate_quantifiers mn mx off = .ok q) ∨
      validate_quantifiers mn mx off =
        .err "max bound must be greater than or equal to min bound" := by
  unfold validate_quantifiers
  cases mn <;> cases mx <;> simp
  split_ifs with hx <;> simp [hx]

/-- C2: the claim that compilation never panics fails on the code: for
`type: object` with an `additionalProperties` value the engine cannot
compile (here the non-object `false`), the `unwrap()` in
`handle_object_type` panics on the inner error rather than returning it. -/
theorem c2_additional_properties_panics :
    toRegexFuel 10 (.obj [("type", .str "object"), ("additionalProperties", .bool false)])
      none = .panicked ∧
    toRegexFuel 10 (.obj [("type", .str "object"),
      ("additionalProperties", .obj [("type", .str "bogus")])]) none = .panicked := by
  exact ⟨by decide!, by decide!⟩

/-- C5 counterexample: `minDigits 1, maxDigits 0` has `maxDigits <
minDigits`, yet compilation succeeds with the unbounded integer pattern
instead of failing with `InvalidBounds`, because `validate_quantifiers`
compares the bounds only after saturating subtraction of the offset 1. -/
theorem c5_counterexample :
    toRegexFuel 10 (.obj [("type", .str "integer"), ("minDigits", .num 1),
      ("maxDigits", .num 0)]) none = .ok "(-)?(0|[1-9][0-9]*)" ∧
    (toRegexFuel 10 (.obj [("type", .str "integer"), ("minDigits", .num 1),
      ("maxDigits", .num 0)]) none).isErr = false := by
  exact ⟨by decide!, by decide!⟩

/-- C5 (amended): the integer handler errs exactly when the digit bounds,
reduced by the leading-digit offset 1 with saturating subtraction,
satisfy max' < min'; the number handler errs exactly when any of its
three pairs does so under its offset (1 for the integer digits, 0 for
fraction and exponent digits). -/
theorem c5_digit_bounds_saturated :
    (∀ obj, (handle_integer_type obj).isErr =
      badPair ((getKey? obj "minDigits").bind JsonValue.as_u64)
        ((getKey? obj "maxDigits").bind JsonValue.as_u64) 1) ∧
    (∀ obj, (handle_number_type obj).isErr =
      (badPair ((getKey? obj "minDigitsInteger").bind JsonValue.as_u64)
         ((getKey? obj "maxDigitsInteger").bind JsonValue.as_u64) 1 ||
       badPair ((getKey? obj "minDigitsFraction").bind JsonValue.as_u64)
         ((getKey? obj "maxDigitsFraction").bind JsonValue.as_u64) 0 ||
       badPair ((getKey? obj "minDigitsExponent").bind JsonValue.as_u64)
         ((getKey? obj "maxDigitsExponent").bind JsonValue.as_u64) 0)) := by
  constructor
  · intro obj
    unfold handle_integer_type
    by_cases h : (containsKey obj "minDigits" || containsKey obj "maxDigits") = true
    · rw [if_pos h]
      rcases validate_quantifiers_cases ((getKey? obj "minDigits").bind JsonValue.as_u64)
          ((getKey? obj "maxDigits").bind JsonValue.as_u64) 1 with ⟨q, hq⟩ | hq
      · rw [hq]
        have := validate_quantifiers_isErr ((getKey? obj "minDigits").bind JsonValue.as_u64)
          ((getKey? obj "maxDigits").bind JsonValue.as_u64) 1
        rw [hq] at this
        simp [CompRes.bind, CompRes.isErr] at this ⊢
        exact this
      · rw [hq]
        have := validate_quantifiers_isErr ((getKey? obj "minDigits").bind JsonValue.as_u64)
          ((getKey? obj "maxDigits").bind JsonValue.as_u64) 1
        rw [hq] at this
        simp [CompRes.bind, CompRes.isErr] at this ⊢
        exact this
    · rw [if_neg h]
      rw [Bool.or_eq_true, not_or] at h
      obtain ⟨h1, h2⟩ := h
      rw [Bool.not_eq_true] at h1 h2
      rw [containsKey_eq_false_iff] at h1 h2
      rw [h1, h2]
      simp [CompRes.isErr, badPair]
  · intro obj
    unfold handle_number_type
    by_cases h : numberBoundKeys.any (fun k => containsKey obj k) = true
    · rw [if_pos h]
      rcases validate_quantifiers_cases
          ((getKey? obj "minDigitsInteger").bind JsonValue.as_u64)
          ((getKey? obj "maxDigitsInteger").bind JsonValue.as_u64) 1 with ⟨q1, hq1⟩ | hq1 <;>
        [skip;
         (rw [hq1]
          have e1 := validate_quantifiers_isErr
            ((getKey? obj "minDigitsInteger").bind JsonValue.as_u64)
            ((getKey? obj "maxDigitsInteger").bind JsonValue.as_u64) 1
          rw [hq1] at e1
          simp [CompRes.bind, CompRes.isErr] at e1 ⊢
          simp [← e1])]
      rw [hq1]
      have e1 := validate_quantifiers_isErr
        ((getKey? obj "minDigitsInteger").bind JsonValue.as_u64)
        ((getKey? obj "maxDigitsInteger").bind JsonValue.as_u64) 1
      rw [hq1] at e1
      simp only [CompRes.isErr] at e1
      rcases validate_quantifiers_cases
          ((getKey? obj "minDigitsFraction").bind JsonValue.as_u64)
          ((getKey? obj "maxDigitsFraction").bind JsonValue.as_u64) 0 with ⟨q2, hq2⟩ | hq2 <;>
        [skip;
         (rw [hq2]
          have e2 := validate_quantifiers_isErr
            ((getKey? obj "minDigitsFraction").bind JsonValue.as_u64)
            ((getKey? obj "maxDigitsFraction").bind JsonValue.as_u64) 0
          rw [hq2] at e2
          simp [CompRes.bind, CompRes.isErr] at e2 ⊢
          simp [← e1, ← e2])]
      rw [hq2]
      have e2 := validate_quantifiers_isErr
        ((getKey? obj "minDigitsFraction").bind JsonValue.as_u64)
        ((getKey? obj "maxDigitsFraction").bind JsonValue.as_u64) 0
      rw [hq2] at e2
      simp only [CompRes.isErr] at e2
      rcases validate_quantifiers_cases
          ((getKey? obj "minDigitsExponent").bind JsonValue.as_u64)
          ((getKey? obj "maxDigitsExponent").bind JsonValue.as_u64) 0 with ⟨q3, hq3⟩ | hq3 <;>
        [skip;
         (rw [hq3]
          have e3 := validate_quantifiers_isErr
            ((getKey? obj "minDigitsExponent").bind JsonValue.as_u64)
            ((getKey? obj "maxDigitsExponent").bind JsonValue.as_u64) 0
          rw [hq3] at e3
          simp [CompRes.bind, CompRes.isErr] at e3 ⊢
          simp [← e1, ← e2, ← e3])]
      rw [hq3]
      have e3 := validate_quantifiers_isErr
        ((getKey? obj "minDigitsExponent").bind JsonValue.as_u64)
        ((getKey? obj "maxDigitsExponent").bind JsonValue.as_u64) 0
      rw [hq3] at e3
      simp only [CompRes.isErr] at e3
      simp [CompRes.bind, CompRes.isErr, ← e1, ← e2, ← e3]
    · rw [if_neg h]
      rw [List.any_eq_true] at h
      push_neg at h
      have h1 := h "minDigitsInteger" (by simp [numberBoundKeys])
      have h2 := h "maxDigitsInteger" (by simp [numberBoundKeys])
      have h3 := h "minDigitsFraction" (by simp [numberBoundKeys])
      have h4 := h "maxDigitsFraction" (by simp [numberBoundKeys])
      have h5 := h "minDigitsExponent" (by simp [numberBoundKeys])
      have h6 := h "maxDigitsExponent" (by simp [numberBoundKeys])
      simp only [ne_eq, Bool.not_eq_true, containsKey_eq_false_iff] at h1 h2 h3 h4 h5 h6
      rw [h1, h2, h3, h4, h5, h6]
      simp [CompRes.isErr, badPair]

/-- C4 counterexample: with only `maxLength 5` the handler emits the
quantifier with an empty minimum position, not `0`: the pattern text
contains `\x7b,5\x7d`, not `\x7b0,5\x7d`. -/
theorem c4_counterexample :
    toRegexFuel 10 (.obj [("type", .str "string"), ("maxLength", .num 5)]) none =
      .ok ("\"" ++ STRING_INNER ++ "\x7b" ++ "" ++ "," ++ "5" ++ "\x7d\"") ∧
    ("\"" ++ STRING_INNER ++ "\x7b" ++ "" ++ "," ++ "5" ++ "\x7d\"" : String) ≠
      ("\"" ++ STRING_INNER ++ "\x7b" ++ "0" ++ "," ++ "5" ++ "\x7d\"") := by
  exact ⟨by decide!, by decide⟩

/-- C4 (amended): with both numeric length bounds and max < min the
string handler fails with the InvalidBounds error; with both bounds it
emits quantifier min,max; with only min it emits min with an empty max
position; with only max it emits an empty min position (not `0`). -/
theorem c4_string_length_bounds :
    (∀ obj (mn mx : Nat),
      getKey? obj "minLength" = some (.num (mn : Int)) →
      getKey? obj "maxLength" = some (.num (mx : Int)) →
      mx < mn →
      handle_string_type obj = .err "maxLength must be greater than or equal to minLength") ∧
    (∀ obj (mn mx : Nat),
      getKey? obj "minLength" = some (.num (mn : Int)) →
      getKey? obj "maxLength" = some (.num (mx : Int)) →
      mn ≤ mx →
      handle_string_type obj =
        .ok ("\"" ++ STRING_INNER ++ "\x7b" ++ toString mn ++ "," ++ toString mx ++ "\x7d\"")) ∧
    (∀ obj (mn : Nat),
      getKey? obj "minLength" = some (.num (mn : Int)) →
      getKey? obj "maxLength" = none →
      handle_string_type obj =
        .ok ("\"" ++ STRING_INNER ++ "\x7b" ++ toString mn ++ "," ++ "" ++ "\x7d\"")) ∧
    (∀ obj (mx : Nat),
      getKey? obj "minLength" = none →
      getKey? obj "maxLength" = some (.num (mx : Int)) →
      handle_string_type obj =
        .ok ("\"" ++ STRING_INNER ++ "\x7b" ++ "" ++ "," ++ toString mx ++ "\x7d\"")) := by
  refine ⟨?_, ?_, ?_, ?_⟩
  · intro obj mn mx h1 h2 hlt
    unfold handle_string_type
    rw [containsKey_eq_true_of_some h2, h1, h2]
    have hgt : optGt (JsonValue.num (mn : Int)).asNum (JsonValue.num (mx : Int)).asNum
        = true := by
      simp only [JsonValue.asNum, optGt, gt_iff_lt, decide_eq_true_eq]
      exact_mod_cast hlt
    simp [hgt]
  · intro obj mn mx h1 h2 hle
    unfold handle_string_type
    rw [containsKey_eq_true_of_some h2, h1, h2]
    have hgt : optGt (JsonValue.num (mn : Int)).asNum (JsonValue.num (mx : Int)).asNum
        = false := by
      simp only [JsonValue.asNum, optGt, gt_iff_lt, decide_eq_false_iff_not, not_lt]
      exact_mod_cast hle
    have hnn1 : ¬ ((mn : Int) < 0) := by omega
    have hnn2 : ¬ ((mx : Int) < 0) := by omega
    simp [hgt, hnn1, hnn2, JsonValue.as_u64, Int.toNat_natCast]
  · intro obj mn h1 h2
    unfold handle_string_type
    rw [containsKey_eq_true_of_some h1, h1, h2]
    have hnn1 : ¬ ((mn : Int) < 0) := by omega
    simp [optGt, hnn1, JsonValue.as_u64, Int.toNat_natCast]
  · intro obj mx h1 h2
    unfold handle_string_type
    rw [containsKey_eq_true_of_some h2, h1, h2]
    have hnn2 : ¬ ((mx : Int) < 0) := by omega
    simp [optGt, hnn2, JsonValue.as_u64, Int.toNat_natCast]

/-- C4 witness: the amended statement applied at concrete inputs. -/
theorem c4_witness :
    handle_string_type [("minLength", .num 5), ("maxLength", .num 2)] =
      .err "maxLength must be greater than or equal to minLength" ∧
    handle_string_type [("maxLength", .num 5)] =
      .ok ("\"" ++ STRING_INNER ++ "\x7b" ++ "" ++ "," ++ toString 5 ++ "\x7d\"") := by
  constructor
  · exact c4_string_length_bounds.1 [("minLength", .num 5), ("maxLength", .num 2)]
      5 2 rfl rfl (by decide)
  · exact c4_string_length_bounds.2.2.2 [("maxLength", .num 5)] 5 rfl rfl

theorem mapMC_ok_of_forall {α β : Type} {f : α → CompRes β} {g : α → β} :
    ∀ (l : List α), (∀ x ∈ l, f x = .ok (g x)) → mapMC f l = .ok (l.map g)
  | [], _ => rfl
  | x :: xs, h => by
      rw [mapMC, h x (List.mem_cons_self x xs),
        mapMC_ok_of_forall xs (fun y hy => h y (List.mem_cons_of_mem x hy))]
      rfl

theorem mapMC_err_of_exists {α β : Type} {f : α → CompRes β} {msg : String} :
    ∀ (l : List α), (∀ x ∈ l, (∃ b, f x = .ok b) ∨ f x = .err msg) →
      (∃ x ∈ l, f x = .err msg) → mapMC f l = .err msg
  | [], _, hex => by simp at hex
  | x :: xs, hall, hex => by
      rcases hall x (List.mem_cons_self x xs) with ⟨b, hb⟩ | hb
      · rw [mapMC, hb]
        have hex' : ∃ y ∈ xs, f y = .err msg := by
          rcases hex with ⟨y, hy, hfy⟩
          rcases List.mem_cons.mp hy with rfl | hy'
          · rw [hb] at hfy; exact absurd hfy (by simp)
          · exact ⟨y, hy', hfy⟩
        rw [mapMC_err_of_exists xs (fun y hy => hall y (List.mem_cons_of_mem x hy)) hex']
        rfl
      · rw [mapMC, hb]
        rfl

/-- C8 counterexample: the const handler returns the bare escaped
serialization of the literal, with no surrounding group: for `const
"hello"` it returns the seven characters `"hello"`, not `("hello")`. -/
theorem c8_counterexample :
    toRegexFuel 10 (.obj [("const", .str "hello")]) none = .ok "\"hello\"" ∧
    ("\"hello\"" : String) ≠ "(\"hello\")" := by
  exact ⟨by decide!, by decide⟩

/-- C8 (amended): for scalar literals the enum handler returns the
`|`-alternation of the escaped serializations wrapped in one group,
while the const handler returns the single escaped serialization without
a group; composite (array or object) literals make either handler fail
with its unsupported-data-type error. -/
theorem c8_enum_const_literals :
    (∀ obj ws vals,
      getKey? obj "enum" = some (.arr vals) →
      (∀ v ∈ vals, (serializeScalar v).isSome = true) →
      handle_enum obj ws = .ok ("(" ++ String.intercalate "|"
        (vals.map (fun v => regex_escape ((serializeScalar v).getD ""))) ++ ")")) ∧
    (∀ obj ws vals,
      getKey? obj "enum" = some (.arr vals) →
      (∃ v ∈ vals, serializeScalar v = none) →
      handle_enum obj ws = .err "Unsupported data type in enum") ∧
    (∀ obj ws v s,
      getKey? obj "const" = some v →
      serializeScalar v = some s →
      handle_const obj ws = .ok (regex_escape s)) ∧
    (∀ obj ws v,
      getKey? obj "const" = some v →
      serializeScalar v = none →
      handle_const obj ws = .err "Unsupported data type in const") := by
  refine ⟨?_, ?_, ?_, ?_⟩
  · intro obj ws vals h hscal
    have hm : mapMC (fun choice => match serializeScalar choice with
        | some s => CompRes.ok (regex_escape s)
        | none => CompRes.err "Unsupported data type in enum") vals
        = CompRes.ok (vals.map (fun v => regex_escape ((serializeScalar v).getD ""))) :=
      mapMC_ok_of_forall vals (fun v hv => by
        rcases Option.isSome_iff_exists.mp (hscal v hv) with ⟨s, hs⟩
        simp [hs])
    unfold handle_enum
    rw [h]
    dsimp only
    rw [hm]
    rfl
  · intro obj ws vals h hex
    have hm : mapMC (fun choice => match serializeScalar choice with
        | some s => CompRes.ok (regex_escape s)
        | none => CompRes.err "Unsupported data type in enum") vals
        = CompRes.err "Unsupported data type in enum" :=
      mapMC_err_of_exists vals (fun v _ => by
        cases hs : serializeScalar v with
        | none => exact Or.inr (by simp [hs])
        | some s => exact Or.inl ⟨regex_escape s, by simp [hs]⟩)
      (by
        rcases hex with ⟨v, hv, hnone⟩
        exact ⟨v, hv, by simp [hnone]⟩)
    unfold handle_enum
    rw [h]
    dsimp only
    rw [hm]
    rfl
  · intro obj ws v s h hs
    unfold handle_const
    rw [h]
    dsimp only
    rw [hs]
  · intro obj ws v h hnone
    unfold handle_const
    rw [h]
    dsimp only
    rw [hnone]

/-- C8 witness: the amended statement applied at concrete inputs. -/
theorem c8_witness :
    handle_const [("const", .str "hello")] WHITESPACE = .ok (regex_escape "\"hello\"") ∧
    handle_enum [("enum", .arr [.str "red", .num 42, .bool true, .null])] WHITESPACE =
      .ok ("(" ++ String.intercalate "|"
        ([JsonValue.str "red", .num 42, .bool true, .null].map
          (fun v => regex_escape ((serializeScalar v).getD ""))) ++ ")") ∧
    handle_const [("const", .arr [])] WHITESPACE = .err "Unsupported data type in const" := by
  refine ⟨?_, ?_, ?_⟩
  · exact c8_enum_const_literals.2.2.1 [("const", .str "hello")] WHITESPACE
      (.str "hello") "\"hello\"" rfl rfl
  · exact c8_enum_const_literals.1 [("enum", .arr [.str "red", .num 42, .bool true, .null])]
      WHITESPACE [.str "red", .num 42, .bool true, .null] rfl
      (by intro v hv; fin_cases hv <;> rfl)
  · exact c8_enum_const_literals.2.2.2 [("const", .arr [])] WHITESPACE (.arr []) rfl rfl

theorem selectKeyword_none {kvs : List (String × JsonValue)}
    (h : ∀ p ∈ recognizedKeywords, containsKey kvs p.1 = false) :
    selectKeyword kvs = none := by
  have h0 := h ("properties", .properties) (by simp [recognizedKeywords])
  have h1 := h ("allOf", .allOf) (by simp [recognizedKeywords])
  have h2 := h ("anyOf", .anyOf) (by simp [recognizedKeywords])
  have h3 := h ("oneOf", .oneOf) (by simp [recognizedKeywords])
  have h4 := h ("prefixItems", .prefixItems) (by simp [recognizedKeywords])
  have h5 := h ("enum", .enum) (by simp [recognizedKeywords])
  have h6 := h ("const", .const) (by simp [recognizedKeywords])
  have h7 := h ("$ref", .ref) (by simp [recognizedKeywords])
  have h8 := h ("type", .type) (by simp [recognizedKeywords])
  simp [selectKeyword, recognizedKeywords, List.findSome?,
    h0, h1, h2, h3, h4, h5, h6, h7, h8]

theorem selectKeyword_at {kvs : List (String × JsonValue)} {i : Nat}
    (hi : i < recognizedKeywords.length)
    (hc : containsKey kvs (recognizedKeywords.get ⟨i, hi⟩).1 = true)
    (hp : ∀ j, (hj : j < recognizedKeywords.length) → j < i →
      containsKey kvs (recognizedKeywords.get ⟨j, hj⟩).1 = false) :
    selectKeyword kvs = some (recognizedKeywords.get ⟨i, hi⟩).2 := by
  have hi9 : i < 9 := hi
  interval_cases i
  · simp only [recognizedKeywords, List.get] at hc ⊢
    simp [selectKeyword, recognizedKeywords, List.findSome?, hc]
  · have p0 := hp 0 (by decide) (by decide)
    simp only [recognizedKeywords, List.get] at hc p0 ⊢
    simp [selectKeyword, recognizedKeywords, List.findSome?, hc, p0]
  · have p0 := hp 0 (by decide) (by decide)
    have p1 := hp 1 (by decide) (by decide)
    simp only [recognizedKeywords, List.get] at hc p0 p1 ⊢
    simp [selectKeyword, recognizedKeywords, List.findSome?, hc, p0, p1]
  · have p0 := hp 0 (by decide) (by decide)
    have p1 := hp 1 (by decide) (by decide)
    have p2 := hp 2 (by decide) (by decide)
    simp only [recognizedKeywords, List.get] at hc p0 p1 p2 ⊢
    simp [selectKeyword, recognizedKeywords, List.findSome?, hc, p0, p1, p2]
  · have p0 := hp 0 (by decide) (by decide)
    have p1 := hp 1 (by decide) (by decide)
    have p2 := hp 2 (by decide) (by decide)
    have p3 := hp 3 (by decide) (by decide)
    simp only [recognizedKeywords, List.get] at hc p0 p1 p2 p3 ⊢
    simp [selectKeyword, recognizedKeywords, List.findSome?, hc, p0, p1, p2, p3]
  · have p0 := hp 0 (by decide) (by decide)
    have p1 := hp 1 (by decide) (by decide)
    have p2 := hp 2 (by decide) (by decide)
    have p3 := hp 3 (by decide) (by decide)
    have p4 := hp 4 (by decide) (by decide)
    simp only [recognizedKeywords, List.get] at hc p0 p1 p2 p3 p4 ⊢
    simp [selectKeyword, recognizedKeywords, List.findSome?, hc, p0, p1, p2, p3, p4]
  · have p0 := hp 0 (by decide) (by decide)
    have p1 := hp 1 (by decide) (by decide)
    have p2 := hp 2 (by decide) (by decide)
    have p3 := hp 3 (by decide) (by decide)
    have p4 := hp 4 (by decide) (by decide)
    have p5 := hp 5 (by decide) (by decide)
    simp only [recognizedKeywords, List.get] at hc p0 p1 p2 p3 p4 p5 ⊢
    simp [selectKeyword, recognizedKeywords, List.findSome?, hc, p0, p1, p2, p3, p4, p5]
  · have p0 := hp 0 (by decide) (by decide)
    have p1 := hp 1 (by decide) (by decide)
    have p2 := hp 2 (by decide) (by decide)
    have p3 := hp 3 (by decide) (by decide)
    have p4 := hp 4 (by decide) (by decide)
    have p5 := hp 5 (by decide) (by decide)
    have p6 := hp 6 (by decide) (by decide)
    simp only [recognizedKeywords, List.get] at hc p0 p1 p2 p3 p4 p5 p6 ⊢
    simp [selectKeyword, recognizedKeywords, List.findSome?, hc, p0, p1, p2, p3, p4, p5, p6]
  · have p0 := hp 0 (by decide) (by decide)
    have p1 := hp 1 (by decide) (by decide)
    have p2 := hp 2 (by decide) (by decide)
    have p3 := hp 3 (by decide) (by decide)
    have p4 := hp 4 (by decide) (by decide)
    have p5 := hp 5 (by decide) (by decide)
    have p6 := hp 6 (by decide) (by decide)
    have p7 := hp 7 (by decide) (by decide)
    simp only [recognizedKeywords, List.get] at hc p0 p1 p2 p3 p4 p5 p6 p7 ⊢
    simp [selectKeyword, recognizedKeywords, List.findSome?, hc, p0, p1, p2, p3, p4, p5,
      p6, p7]

theorem containsKey_ne_nil {kvs : List (String × JsonValue)} {k : String}
    (h : containsKey kvs k = true) : kvs ≠ [] := by
  intro hnil
  subst hnil
  simp [containsKey, getKey?] at h

/-- C3: the dispatcher scans the fixed ordered key list and dispatches to
the handler of the first present key; with no recognized key on a
non-empty object it fails; the empty object is routed to the
unconstrained handler. -/
theorem c3_dispatcher_first_key_wins (fuel : Nat) (ws : Option String)
    (kvs : List (String × JsonValue)) :
    (∀ i, (hi : i < recognizedKeywords.length) →
      containsKey kvs (recognizedKeywords.get ⟨i, hi⟩).1 = true →
      (∀ j, (hj : j < recognizedKeywords.length) → j < i →
        containsKey kvs (recognizedKeywords.get ⟨j, hj⟩).1 = false) →
      toRegexFuel (fuel + 1) (.obj kvs) ws =
        dispatchKeyword (recognizedKeywords.get ⟨i, hi⟩).2
          (fun v => toRegexFuel fuel v (some (ws.getD WHITESPACE))) kvs
          (ws.getD WHITESPACE)) ∧
    (kvs ≠ [] → (∀ p ∈ recognizedKeywords, containsKey kvs p.1 = false) →
      toRegexFuel (fuel + 1) (.obj kvs) ws = .err "Unsupported JSON Schema structure") ∧
    (toRegexFuel (fuel + 1) (.obj []) ws =
      handle_empty_object (fun v => toRegexFuel fuel v (some (ws.getD WHITESPACE)))
        (ws.getD WHITESPACE)) := by
  refine ⟨?_, ?_, ?_⟩
  · intro i hi hc hp
    have hne : kvs ≠ [] := containsKey_ne_nil hc
    have hemp : kvs.isEmpty = false := by
      rcases kvs with _ | ⟨kv, rest⟩
      · exact absurd rfl hne
      · rfl
    rw [toRegexFuel_obj, hemp, selectKeyword_at hi hc hp]
    rfl
  · intro hne hall
    have hemp : kvs.isEmpty = false := by
      rcases kvs with _ | ⟨kv, rest⟩
      · exact absurd rfl hne
      · rfl
    rw [toRegexFuel_obj, hemp, selectKeyword_none hall]
    rfl
  · rw [toRegexFuel_obj]
    rfl

/-- C3 witness: a node containing both `enum` and `type` dispatches to
the enum handler, `enum` being earlier in the list. -/
theorem c3_witness :
    toRegexFuel 3 (.obj [("enum", .arr [.str "a"]), ("type", .str "string")]) none =
      dispatchKeyword SchemaKeyword.enum
        (fun v => toRegexFuel 2 v (some WHITESPACE))
        [("enum", .arr [.str "a"]), ("type", .str "string")] WHITESPACE := by
  have h := (c3_dispatcher_first_key_wins 2 none
      [("enum", .arr [.str "a"]), ("type", .str "string")]).1 5 (by decide)
    (by decide) (by intro j hj hji; interval_cases j <;> rfl)
  simpa using h

/-- C6: the shared repetition policy signals empty-only exactly when max
is defined and below 1, otherwise emits the saturating min-1,max-1 (or
open min-1) quantifier; a zero minimum makes the array content group
optional; and the minItems 0 / maxItems 0 array schema compiles to a
pattern matching exactly the whitespace-padded empty array, rejecting
`[1]`. -/
theorem c6_num_items_policy :
    (∀ mn mx, get_num_items_pattern mn mx = none ↔ ∃ m, mx = some m ∧ m < 1) ∧
    (∀ mn m, 1 ≤ m → get_num_items_pattern mn (some m) =
      some ("\x7b" ++ toString (mn.getD 0 - 1) ++ "," ++ toString (m - 1) ++ "\x7d")) ∧
    (∀ mn, get_num_items_pattern mn none =
      some ("\x7b" ++ toString (mn.getD 0 - 1) ++ ",\x7d")) ∧
    (∀ recur obj ws items ir nr,
      getKey? obj "items" = some items →
      recur items = CompRes.ok ir →
      ((getKey? obj "minItems").bind JsonValue.as_u64).getD 0 = 0 →
      (get_num_items_pattern ((getKey? obj "minItems").bind JsonValue.as_u64)
        ((getKey? obj "maxItems").bind JsonValue.as_u64)).getD "" = nr →
      nr ≠ "" →
      handle_array_type recur obj ws = .ok ("\\[" ++ ws ++ "((" ++ ir ++ ")(," ++ ws ++
        "(" ++ ir ++ "))" ++ nr ++ ")" ++ "?" ++ ws ++ "\\]")) ∧
    toRegexFuel 10 (.obj [("type", .str "array"), ("minItems", .num 0),
      ("maxItems", .num 0)]) none = .ok "\\[[ ]?[ ]?\\]" ∧
    parseRegex "\\[[ ]?[ ]?\\]" = some emptyArrayRegex ∧
    (∀ s, RMatch emptyArrayRegex s ↔
      (s = "[]".data ∨ s = "[ ]".data ∨ s = "[  ]".data)) ∧
    ¬ RMatch emptyArrayRegex "[1]".data := by
  refine ⟨?_, ?_, ?_, ?_, by decide!, by decide!, ?_, ?_⟩
  · intro mn mx
    cases mx with
    | none => simp [get_num_items_pattern]
    | some m =>
        by_cases hm : m < 1
        · simp only [get_num_items_pattern, if_pos hm]
          exact ⟨fun _ => ⟨m, rfl, hm⟩, fun _ => trivial⟩
        · simp only [get_num_items_pattern, if_neg hm]
          constructor
          · intro h; exact absurd h (by simp)
          · rintro ⟨m', hm', hlt⟩
            injection hm' with he
            exact absurd (he ▸ hlt) hm
  · intro mn m hm
    simp [get_num_items_pattern, Nat.not_lt.mpr hm]
  · intro mn
    simp [get_num_items_pattern]
  · intro recur obj ws items ir nr hitems hrec hmin hnr hne
    unfold handle_array_type
    rw [hnr, if_neg hne, hmin, hitems]
    simp only [if_pos rfl]
    rw [hrec]
    rfl
  · intro s
    constructor
    · intro h
      rcases RMatch_cat_iff.mp h with ⟨s1, rest1, rfl, h1, h2⟩
      rw [RMatch_lit_iff] at h1
      subst h1
      rcases RMatch_cat_iff.mp h2 with ⟨s2, rest2, rfl, hw1, h3⟩
      rw [RMatch_opt_iff, RMatch_lit_iff] at hw1
      rcases RMatch_cat_iff.mp h3 with ⟨s3, rest3, rfl, hw2, h4⟩
      rw [RMatch_opt_iff, RMatch_lit_iff] at hw2
      rw [RMatch_lit_iff] at h4
      subst h4
      rcases hw1 with rfl | rfl <;> rcases hw2 with rfl | rfl <;> simp
    · rintro (rfl | rfl | rfl)
      · exact (rmatch_iff _ _).mp (by decide)
      · exact (rmatch_iff _ _).mp (by decide)
      · exact (rmatch_iff _ _).mp (by decide)
  · intro h
    have := (rmatch_iff _ _).mpr h
    rw [show rmatch emptyArrayRegex "[1]".data = false from by decide] at this
    exact absurd this (by simp)

/-- C6 witness: the policy applied at concrete bounds, and the optional
wrap applied to a concrete items schema. -/
theorem c6_witness :
    get_num_items_pattern (some 2) (some 3) = some "\x7b1,2\x7d" ∧
    get_num_items_pattern none (some 0) = none := by
  constructor
  · exact (c6_num_items_policy.2.1 (some 2) 3 (by decide)).trans (by decide)
  · exact (c6_num_items_policy.1 none (some 0)).mpr ⟨0, rfl, by decide⟩

/-- C7 counterexample: the compiled pattern for the empty schema begins
with the boolean fragment wrapped in a plain capturing group —
`((true|false))|` — not with a non-capturing `(?:` group. -/
theorem c7_counterexample :
    (match toRegexFuel 12 (.obj []) none with
      | .ok s => s.data.take 15
      | _ => []) = "((true|false))|".data ∧
    "((true|false))|".data.take 3 ≠ "(?:".data := by
  exact ⟨by decide!, by decide⟩

/-- C7 (amended): the empty object schema is dispatched to the
unconstrained handler, which compiles the seven base types in order
boolean, null, number, integer, string, array, object and joins their
fragments with a bar, each wrapped in one plain (capturing) group. -/
theorem c7_empty_object_alternation :
    (∀ fuel ws, toRegexFuel (fuel + 1) (.obj []) ws =
      handle_empty_object (fun v => toRegexFuel fuel v (some (ws.getD WHITESPACE)))
        (ws.getD WHITESPACE)) ∧
    (∀ recur ws rs, mapMC recur emptyObjectTypes = .ok rs →
      handle_empty_object recur ws =
        .ok (String.intercalate "|" (rs.map (fun r => "(" ++ r ++ ")")))) ∧
    emptyObjectTypes = [typedSchema "boolean", typedSchema "null", typedSchema "number",
      typedSchema "integer", typedSchema "string", typedSchema "array",
      typedSchema "object"] := by
  refine ⟨?_, ?_, rfl⟩
  · intro fuel ws
    rw [toRegexFuel_obj]
    rfl
  · intro recur ws rs h
    unfold handle_empty_object
    rw [h]
    rfl

/-- C7 witness: the handler shape applied with a stub compiler that
returns the same fragment for every alternative. -/
theorem c7_witness :
    handle_empty_object (fun _ => CompRes.ok "X") WHITESPACE =
      .ok "(X)|(X)|(X)|(X)|(X)|(X)|(X)" := by
  have h := c7_empty_object_alternation.2.1 (fun _ => CompRes.ok "X") WHITESPACE
    ["X", "X", "X", "X", "X", "X", "X"] (by rfl)
  exact h.trans (by decide)

/-- C1: the compiled pattern for a schema declaring properties `a` then
`b` (both strings, no required list) accepts the serialization with `b`
before `a` and rejects the declaration-order serialization — the inverse
of the documented and spec-mandated behavior, caused by the
`.iter().rev()` in the zero-required branch of `handle_properties`. -/
theorem c1_properties_reverse_order :
    toRegexFuel 10 schemaAB none = .ok c1pattern ∧
    (∀ r, parseRegex c1pattern = some r →
      RMatch r docBA.data ∧ ¬ RMatch r docAB.data) ∧
    (parseRegex c1pattern).isSome = true := by
  refine ⟨by decide!, ?_, by decide!⟩
  intro r hr
  have h1 : (parseRegex c1pattern).map (fun q => rmatch q docBA.data) = some true := by
    decide!
  have h2 : (parseRegex c1pattern).map (fun q => rmatch q docAB.data) = some false := by
    decide!
  rw [hr] at h1 h2
  simp only [Option.map_some', Option.some.injEq] at h1 h2
  refine ⟨(rmatch_iff _ _).mp h1, ?_⟩
  intro hm
  have := (rmatch_iff _ _).mpr hm
  rw [this] at h2
  exact absurd h2 (by simp)

/-- C1 witness: the pattern parses and the parsed regex accepts the
reversed-order document. -/
theorem c1_witness :
    ∃ r, parseRegex c1pattern = some r ∧ RMatch r docBA.data := by
  cases hp : parseRegex c1pattern with
  | none =>
      have := c1_properties_reverse_order.2.2
      rw [hp] at this
      exact absurd this (by simp)
  | some r =>
      exact ⟨r, rfl, (c1_properties_reverse_order.2.1 r hp).1⟩

/-- C10: the expansion budget of an under-constrained array or object
node is read from the node's own numeric `depth` member, defaulting to
2; the budget selects which nested alternatives the legal-type lists
offer, so a caller-supplied `depth` key changes the compiled pattern:
with `depth 0` the array item union holds only the five scalar
alternatives, while the default pattern also offers nested object/array
content. -/
theorem c10_depth_key_override :
    (∀ obj (k : Nat), getKey? obj "depth" = some (.num (k : Int)) → depthOf obj = k) ∧
    (∀ obj, getKey? obj "depth" = none → depthOf obj = 2) ∧
    (∀ recur obj ws nr,
      getKey? obj "items" = none →
      (get_num_items_pattern ((getKey? obj "minItems").bind JsonValue.as_u64)
        ((getKey? obj "maxItems").bind JsonValue.as_u64)).getD "" = nr →
      nr ≠ "" →
      handle_array_type recur obj ws =
        (mapMC recur (arrayLegalTypes (depthOf obj))).bind (fun regexes =>
          .ok ("\\[" ++ ws ++ "((" ++ String.intercalate "|" regexes ++ ")(," ++ ws ++
            "(" ++ String.intercalate "|" regexes ++ "))" ++ nr ++ ")" ++
            (if ((getKey? obj "minItems").bind JsonValue.as_u64).getD 0 = 0
              then "?" else "") ++ ws ++ "\\]"))) ∧
    arrayLegalTypes 0 = [typedSchema "boolean", typedSchema "null", typedSchema "number",
      typedSchema "integer", typedSchema "string"] ∧
    (∀ d, 0 < d → arrayLegalTypes d = [typedSchema "boolean", typedSchema "null",
      typedSchema "number", typedSchema "integer", typedSchema "string",
      typedDepthSchema "object" (d - 1), typedDepthSchema "array" (d - 1)]) ∧
    objectLegalTypes 0 = [typedSchema "string", typedSchema "number",
      typedSchema "boolean", typedSchema "null"] ∧
    (∀ d, 0 < d → objectLegalTypes d = [typedSchema "string", typedSchema "number",
      typedSchema "boolean", typedSchema "null", typedDepthSchema "object" (d - 1),
      typedDepthSchema "array" (d - 1)]) ∧
    toRegexFuel 6 (.obj [("type", .str "array"), ("depth", .num 0)]) none =
      .ok c10depth0 ∧
    (match toRegexFuel 10 (.obj [("type", .str "array")]) none with
      | .ok s => s.data.take 300
      | _ => []) = c10def300.data ∧
    c10depth0.data.take 300 ≠ c10def300.data := by
  refine ⟨?_, ?_, ?_, rfl, ?_, rfl, ?_, by decide!, by decide!, by decide⟩
  · intro obj k h
    have hnn : ¬ ((k : Int) < 0) := by omega
    simp [depthOf, h, JsonValue.as_u64, hnn, Int.toNat_natCast]
  · intro obj h
    simp [depthOf, h]
  · intro recur obj ws nr hitems hnr hne
    unfold handle_array_type
    rw [hnr, if_neg hne, hitems]
  · intro d hd
    simp [arrayLegalTypes, hd]
  · intro d hd
    simp [objectLegalTypes, hd]

/-- C10 witness: the depth read applied at concrete nodes. -/
theorem c10_witness :
    depthOf [("type", .str "array"), ("depth", .num 5)] = 5 ∧
    depthOf [("type", .str "array")] = 2 := by
  constructor
  · exact c10_depth_key_override.1 [("type", .str "array"), ("depth", .num 5)] 5 rfl
  · exact c10_depth_key_override.2.1 [("type", .str "array")] rfl

/- Measure lemmas for the termination proof. -/

theorem BvP_mem_le {kvs : List (String × JsonValue)} {kv : String × JsonValue}
    (h : kv ∈ kvs) : Bv kv.2 ≤ BvP kvs := by
  induction kvs with
  | nil => simp at h
  | cons hd tl ih =>
      rcases List.mem_cons.mp h with rfl | h'
      · rw [BvP]; exact le_max_left _ _
      · rw [BvP]; exact le_trans (ih h') (le_max_right _ _)

theorem BvL_mem_le {xs : List JsonValue} {x : JsonValue} (h : x ∈ xs) : Bv x ≤ BvL xs := by
  induction xs with
  | nil => simp at h
  | cons hd tl ih =>
      rcases List.mem_cons.mp h with rfl | h'
      · rw [BvL]; exact le_max_left _ _
      · rw [BvL]; exact le_trans (ih h') (le_max_right _ _)

theorem BvL_le_of_forall {xs : List JsonValue} {d : Nat} (h : ∀ x ∈ xs, Bv x ≤ d) :
    BvL xs ≤ d := by
  induction xs with
  | nil => simp [BvL]
  | cons hd tl ih =>
      rw [BvL]
      exact max_le (h hd (List.mem_cons_self hd tl))
        (ih (fun x hx => h x (List.mem_cons_of_mem hd hx)))

theorem szP_mem_lt {kvs : List (String × JsonValue)} {kv : String × JsonValue}
    (h : kv ∈ kvs) : szV kv.2 < szV (.obj kvs) := by
  rw [szV]
  have : szV kv.2 < szP kvs + 1 := by
    clear * - h
    induction kvs with
    | nil => simp at h
    | cons hd tl ih =>
        rcases List.mem_cons.mp h with rfl | h'
        · rw [szP]; omega
        · rw [szP]; have := ih h'; omega
  omega

theorem szL_mem_lt {xs : List JsonValue} {x : JsonValue} (h : x ∈ xs) :
    szV x < szV (.arr xs) := by
  rw [szV]
  have : szV x < szL xs + 1 := by
    clear * - h
    induction xs with
    | nil => simp at h
    | cons hd tl ih =>
        rcases List.mem_cons.mp h with rfl | h'
        · rw [szL]; omega
        · rw [szL]; have := ih h'; omega
  omega

theorem Bv_obj_le {kvs : List (String × JsonValue)} {kv : String × JsonValue}
    (h : kv ∈ kvs) : Bv kv.2 ≤ Bv (.obj kvs) := by
  rw [Bv]
  exact le_trans (BvP_mem_le h) (le_max_right _ _)

theorem Bv_arr_le {xs : List JsonValue} {x : JsonValue} (h : x ∈ xs) :
    Bv x ≤ Bv (.arr xs) := by
  rw [Bv]
  exact BvL_mem_le h

theorem getKey?_mem {kvs : List (String × JsonValue)} {k : String} {u : JsonValue}
    (h : getKey? kvs k = some u) : ∃ kv ∈ kvs, kv.2 = u := by
  induction kvs with
  | nil => simp [getKey?] at h
  | cons hd tl ih =>
      rw [getKey?] at h
      by_cases he : hd.1 = k
      · rw [if_pos he] at h
        exact ⟨hd, List.mem_cons_self hd tl, by injection h⟩
      · rw [if_neg he] at h
        rcases ih h with ⟨kv, hkv, hv⟩
        exact ⟨kv, List.mem_cons_of_mem hd hkv, hv⟩

theorem Bv_value_le {kvs : List (String × JsonValue)} {k : String} {u : JsonValue}
    (h : getKey? kvs k = some u) : Bv u ≤ Bv (.obj kvs) := by
  rcases getKey?_mem h with ⟨kv, hkv, rfl⟩
  exact Bv_obj_le hkv

theorem szV_value_lt {kvs : List (String × JsonValue)} {k : String} {u : JsonValue}
    (h : getKey? kvs k = some u) : szV u < szV (.obj kvs) := by
  rcases getKey?_mem h with ⟨kv, hkv, rfl⟩
  exact szP_mem_lt hkv

theorem Bv_typedDepthSchema {t : String} {k : Nat}
    (ht : t = "object" ∨ t = "array") : Bv (typedDepthSchema t k) = k + 1 := by
  have hnn : ¬ ((k : Int) < 0) := by omega
  rcases ht with rfl | rfl <;>
    simp [Bv, BvP, typedDepthSchema, potObj, depthOf, getKey?, JsonValue.as_u64,
      hnn, Int.toNat_natCast]

theorem Bv_arrayLegalTypes {d : Nat} {u : JsonValue} (h : u ∈ arrayLegalTypes d) :
    Bv u ≤ d := by
  rw [arrayLegalTypes] at h
  by_cases hd : d > 0
  · rw [if_pos hd] at h
    simp only [List.mem_append, List.mem_cons, List.not_mem_nil, or_false] at h
    rcases h with (rfl | rfl | rfl | rfl | rfl) | (rfl | rfl)
    · exact Nat.zero_le d
    · exact Nat.zero_le d
    · exact Nat.zero_le d
    · exact Nat.zero_le d
    · exact Nat.zero_le d
    · rw [Bv_typedDepthSchema (Or.inl rfl)]; omega
    · rw [Bv_typedDepthSchema (Or.inr rfl)]; omega
  · rw [if_neg hd] at h
    simp only [List.append_nil, List.mem_cons, List.not_mem_nil, or_false] at h
    rcases h with rfl | rfl | rfl | rfl | rfl
    · exact Nat.zero_le d
    · exact Nat.zero_le d
    · exact Nat.zero_le d
    · exact Nat.zero_le d
    · exact Nat.zero_le d

theorem Bv_objectLegalTypes {d : Nat} {u : JsonValue} (h : u ∈ objectLegalTypes d) :
    Bv u ≤ d := by
  rw [objectLegalTypes] at h
  by_cases hd : d > 0
  · rw [if_pos hd] at h
    simp only [List.mem_append, List.mem_cons, List.not_mem_nil, or_false] at h
    rcases h with (rfl | rfl | rfl | rfl) | (rfl | rfl)
    · exact Nat.zero_le d
    · exact Nat.zero_le d
    · exact Nat.zero_le d
    · exact Nat.zero_le d
    · rw [Bv_typedDepthSchema (Or.inl rfl)]; omega
    · rw [Bv_typedDepthSchema (Or.inr rfl)]; omega
  · rw [if_neg hd] at h
    simp only [List.append_nil, List.mem_cons, List.not_mem_nil, or_false] at h
    rcases h with rfl | rfl | rfl | rfl
    · exact Nat.zero_le d
    · exact Nat.zero_le d
    · exact Nat.zero_le d
    · exact Nat.zero_le d

theorem Bv_anyOfVal (d : Nat) :
    Bv (.obj [("anyOf", .arr (objectLegalTypes d))]) ≤ d := by
  rw [Bv]
  apply max_le
  · simp [potObj, getKey?]
  · rw [BvP, BvP, Bv]
    apply max_le
    · exact BvL_le_of_forall (fun x hx => Bv_objectLegalTypes hx)
    · exact Nat.zero_le d

theorem Bv_type_lower {kvs : List (String × JsonValue)} {t : String}
    (hne : kvs.isEmpty = false) (ht : getKey? kvs "type" = some (.str t))
    (htt : t = "object" ∨ t = "array") : depthOf kvs + 1 ≤ Bv (.obj kvs) := by
  rw [Bv]
  refine le_trans ?_ (le_max_left _ _)
  rw [potObj, hne, ht]
  rcases htt with rfl | rfl <;> simp

/- Fuel-exhaustion propagation: each handler can only report `fuelOut` if
one of its recursive calls does. -/

theorem bind_ne_fuelOut {α β : Type} {x : CompRes α} {f : α → CompRes β}
    (hx : x ≠ .fuelOut) (hf : ∀ a, f a ≠ .fuelOut) : x.bind f ≠ .fuelOut := by
  cases x with
  | ok a => exact hf a
  | err m => simp [CompRes.bind]
  | panicked => simp [CompRes.bind]
  | fuelOut => exact absurd rfl hx

theorem ok_ne_fuelOut {α : Type} {a : α} : (CompRes.ok a) ≠ .fuelOut := by simp

theorem err_ne_fuelOut {α : Type} {m : String} : (CompRes.err m : CompRes α) ≠ .fuelOut := by
  simp

theorem mapMC_ne_fuelOut {α β : Type} {f : α → CompRes β} :
    ∀ {l : List α}, (∀ x ∈ l, f x ≠ .fuelOut) → mapMC f l ≠ .fuelOut
  | [], _ => by simp [mapMC]
  | x :: xs, h => by
      rw [mapMC]
      exact bind_ne_fuelOut (h x (List.mem_cons_self x xs))
        (fun y => bind_ne_fuelOut
          (mapMC_ne_fuelOut (fun z hz => h z (List.mem_cons_of_mem x hz)))
          (fun ys => ok_ne_fuelOut))

theorem validate_quantifiers_ne_fuelOut (mn mx : Option Nat) (off : Nat) :
    validate_quantifiers mn mx off ≠ .fuelOut := by
  rcases validate_quantifiers_cases mn mx off with ⟨q, hq⟩ | hq <;> rw [hq] <;> simp

theorem handle_string_type_ne_fuelOut (obj : List (String × JsonValue)) :
    handle_string_type obj ≠ .fuelOut := by
  unfold handle_string_type
  by_cases h1 : (containsKey obj "maxLength" || containsKey obj "minLength") = true
  · rw [if_pos h1]
    dsimp only
    split_ifs <;> simp
  · rw [if_neg h1]
    cases (getKey? obj "pattern").bind JsonValue.as_str with
    | some p =>
        dsimp only
        split_ifs <;> simp
    | none =>
        dsimp only
        cases (getKey? obj "format").bind JsonValue.as_str with
        | none => simp
        | some fmt =>
            dsimp only
            cases FormatType.from_str fmt <;> simp

theorem handle_integer_type_ne_fuelOut (obj : List (String × JsonValue)) :
    handle_integer_type obj ≠ .fuelOut := by
  unfold handle_integer_type
  split_ifs
  · exact bind_ne_fuelOut (validate_quantifiers_ne_fuelOut _ _ _) (fun q => ok_ne_fuelOut)
  · simp

theorem handle_number_type_ne_fuelOut (obj : List (String × JsonValue)) :
    handle_number_type obj ≠ .fuelOut := by
  unfold handle_number_type
  split_ifs
  · exact bind_ne_fuelOut (validate_quantifiers_ne_fuelOut _ _ _) (fun q1 =>
      bind_ne_fuelOut (validate_quantifiers_ne_fuelOut _ _ _) (fun q2 =>
        bind_ne_fuelOut (validate_quantifiers_ne_fuelOut _ _ _) (fun q3 => ok_ne_fuelOut)))
  · simp

theorem handle_enum_ne_fuelOut (obj : List (String × JsonValue)) (ws : String) :
    handle_enum obj ws ≠ .fuelOut := by
  unfold handle_enum
  split
  · apply bind_ne_fuelOut
    · apply mapMC_ne_fuelOut
      intro x _
      split <;> simp
    · exact fun _ => ok_ne_fuelOut
  · simp

theorem handle_const_ne_fuelOut (obj : List (String × JsonValue)) (ws : String) :
    handle_const obj ws ≠ .fuelOut := by
  unfold handle_const
  split
  · split <;> simp
  · simp

theorem mem_enum_snd {α : Type} : ∀ {l : List α} {n : Nat} {p : Nat × α},
    p ∈ l.enumFrom n → p.2 ∈ l
  | [], _, _, h => by simp at h
  | x :: xs, n, p, h => by
      rw [List.enumFrom] at h
      rcases List.mem_cons.mp h with rfl | h'
      · exact List.mem_cons_self x xs
      · exact List.mem_cons_of_mem x (mem_enum_snd h')

theorem handle_properties_ne_fuelOut {recur : JsonValue → CompRes String}
    {obj : List (String × JsonValue)} {ws : String}
    (h : ∀ props, getKey? obj "properties" = some (.obj props) →
      ∀ kv ∈ props, recur kv.2 ≠ .fuelOut) :
    handle_properties recur obj ws ≠ .fuelOut := by
  unfold handle_properties
  cases hk : (getKey? obj "properties").bind JsonValue.as_object with
  | none => simp
  | some props =>
      have hmem : ∀ kv ∈ props, recur kv.2 ≠ .fuelOut := by
        cases hg : getKey? obj "properties" with
        | none => rw [hg] at hk; simp [Option.bind] at hk
        | some v =>
            rw [hg] at hk
            cases v <;> simp [Option.bind, JsonValue.as_object] at hk
            subst hk
            exact h _ hg
      dsimp only
      split
      · apply bind_ne_fuelOut
        · apply mapMC_ne_fuelOut
          intro p hp
          exact bind_ne_fuelOut (hmem ⟨p.2.1, p.2.2⟩ (mem_enum_snd hp))
            (fun _ => ok_ne_fuelOut)
        · exact fun _ => ok_ne_fuelOut
      · apply bind_ne_fuelOut
        · apply mapMC_ne_fuelOut
          intro kv hkv
          exact bind_ne_fuelOut (hmem kv (List.mem_reverse.mp hkv))
            (fun _ => ok_ne_fuelOut)
        · exact fun _ => ok_ne_fuelOut

theorem handle_all_of_ne_fuelOut {recur : JsonValue → CompRes String}
    {obj : List (String × JsonValue)} {ws : String}
    (h : ∀ l, getKey? obj "allOf" = some (.arr l) → ∀ u ∈ l, recur u ≠ .fuelOut) :
    handle_all_of recur obj ws ≠ .fuelOut := by
  unfold handle_all_of
  cases hk : getKey? obj "allOf" with
  | none => simp
  | some v =>
      cases v <;> try simp
      exact bind_ne_fuelOut (mapMC_ne_fuelOut (h _ hk)) (fun _ => ok_ne_fuelOut)

theorem handle_any_of_ne_fuelOut {recur : JsonValue → CompRes String}
    {obj : List (String × JsonValue)} {ws : String}
    (h : ∀ l, getKey? obj "anyOf" = some (.arr l) → ∀ u ∈ l, recur u ≠ .fuelOut) :
    handle_any_of recur obj ws ≠ .fuelOut := by
  unfold handle_any_of
  cases hk : getKey? obj "anyOf" with
  | none => simp
  | some v =>
      cases v <;> try simp
      exact bind_ne_fuelOut (mapMC_ne_fuelOut (h _ hk)) (fun _ => ok_ne_fuelOut)

theorem handle_one_of_ne_fuelOut {recur : JsonValue → CompRes String}
    {obj : List (String × JsonValue)} {ws : String}
    (h : ∀ l, getKey? obj "oneOf" = some (.arr l) → ∀ u ∈ l, recur u ≠ .fuelOut) :
    handle_one_of recur obj ws ≠ .fuelOut := by
  unfold handle_one_of
  cases hk : getKey? obj "oneOf" with
  | none => simp
  | some v =>
      cases v <;> try simp
      exact bind_ne_fuelOut (mapMC_ne_fuelOut (h _ hk)) (fun _ => ok_ne_fuelOut)

theorem handle_prefix_items_ne_fuelOut {recur : JsonValue → CompRes String}
    {obj : List (String × JsonValue)} {ws : String}
    (h : ∀ l, getKey? obj "prefixItems" = some (.arr l) → ∀ u ∈ l, recur u ≠ .fuelOut) :
    handle_prefix_items recur obj ws ≠ .fuelOut := by
  unfold handle_prefix_items
  cases hk : getKey? obj "prefixItems" with
  | none => simp
  | some v =>
      cases v <;> try simp
      exact bind_ne_fuelOut (mapMC_ne_fuelOut (h _ hk)) (fun _ => ok_ne_fuelOut)

theorem handle_array_type_ne_fuelOut {recur : JsonValue → CompRes String}
    {obj : List (String × JsonValue)} {ws : String}
    (hit : ∀ it, getKey? obj "items" = some it → recur it ≠ .fuelOut)
    (hleg : ∀ u ∈ arrayLegalTypes (depthOf obj), recur u ≠ .fuelOut) :
    handle_array_type recur obj ws ≠ .fuelOut := by
  unfold handle_array_type
  dsimp only
  by_cases hnr : (get_num_items_pattern ((getKey? obj "minItems").bind JsonValue.as_u64)
      ((getKey? obj "maxItems").bind JsonValue.as_u64)).getD "" = ""
  · rw [if_pos hnr]; simp
  · rw [if_neg hnr]
    cases hk : getKey? obj "items" with
    | some it => exact bind_ne_fuelOut (hit it hk) (fun _ => ok_ne_fuelOut)
    | none => exact bind_ne_fuelOut (mapMC_ne_fuelOut hleg) (fun _ => ok_ne_fuelOut)

theorem handle_object_type_ne_fuelOut {recur : JsonValue → CompRes String}
    {obj : List (String × JsonValue)} {ws : String}
    (hany : recur (.obj [("anyOf", .arr (objectLegalTypes (depthOf obj)))]) ≠ .fuelOut)
    (hap : ∀ ap, getKey? obj "additionalProperties" = some ap → recur ap ≠ .fuelOut) :
    handle_object_type recur obj ws ≠ .fuelOut := by
  unfold handle_object_type
  dsimp only
  cases get_num_items_pattern ((getKey? obj "minProperties").bind JsonValue.as_u64)
      ((getKey? obj "maxProperties").bind JsonValue.as_u64) with
  | none => simp
  | some nr =>
      dsimp only
      have hvp : (match getKey? obj "additionalProperties" with
          | none => recur (.obj [("anyOf", .arr (objectLegalTypes (depthOf obj)))])
          | some (.bool true) => recur (.obj [("anyOf", .arr (objectLegalTypes (depthOf obj)))])
          | some ap => recur ap) ≠ CompRes.fuelOut := by
        cases hk : getKey? obj "additionalProperties" with
        | none => exact hany
        | some ap =>
            cases ap with
            | bool b =>
                cases b with
                | false => exact hap _ hk
                | true => exact hany
            | null => exact hap _ hk
            | num n => exact hap _ hk
            | str s => exact hap _ hk
            | arr xs => exact hap _ hk
            | obj kvs => exact hap _ hk
      revert hvp
      cases (match getKey? obj "additionalProperties" with
          | none => recur (.obj [("anyOf", .arr (objectLegalTypes (depthOf obj)))])
          | some (.bool true) => recur (.obj [("anyOf", .arr (objectLegalTypes (depthOf obj)))])
          | some ap => recur ap) <;> intro hvp <;> simp_all

theorem handle_empty_object_ne_fuelOut {recur : JsonValue → CompRes String} {ws : String}
    (h : ∀ t ∈ emptyObjectTypes, recur t ≠ .fuelOut) :
    handle_empty_object recur ws ≠ .fuelOut := by
  unfold handle_empty_object
  exact bind_ne_fuelOut (mapMC_ne_fuelOut h) (fun _ => ok_ne_fuelOut)

theorem handle_type_ne_fuelOut {recur : JsonValue → CompRes String}
    {obj : List (String × JsonValue)} {ws : String}
    (hit : ∀ it, getKey? obj "items" = some it → recur it ≠ .fuelOut)
    (hap : ∀ ap, getKey? obj "additionalProperties" = some ap → recur ap ≠ .fuelOut)
    (haleg : getKey? obj "type" = some (.str "array") →
      ∀ u ∈ arrayLegalTypes (depthOf obj), recur u ≠ .fuelOut)
    (hany : getKey? obj "type" = some (.str "object") →
      recur (.obj [("anyOf", .arr (objectLegalTypes (depthOf obj)))]) ≠ .fuelOut) :
    handle_type recur obj ws ≠ .fuelOut := by
  unfold handle_type
  cases hk : getKey? obj "type" with
  | none => simp [Option.bind]
  | some v =>
      cases v with
      | null => simp [Option.bind, JsonValue.as_str]
      | bool b => simp [Option.bind, JsonValue.as_str]
      | num n => simp [Option.bind, JsonValue.as_str]
      | arr xs => simp [Option.bind, JsonValue.as_str]
      | obj kvs2 => simp [Option.bind, JsonValue.as_str]
      | str t =>
          dsimp only [Option.bind, JsonValue.as_str]
          by_cases h1 : t = "string"
          · subst h1; exact handle_string_type_ne_fuelOut obj
          · by_cases h2 : t = "number"
            · subst h2; exact handle_number_type_ne_fuelOut obj
            · by_cases h3 : t = "integer"
              · subst h3; exact handle_integer_type_ne_fuelOut obj
              · by_cases h4 : t = "array"
                · subst h4; exact handle_array_type_ne_fuelOut hit (haleg hk)
                · by_cases h5 : t = "object"
                  · subst h5; exact handle_object_type_ne_fuelOut (hany hk) hap
                  · by_cases h6 : t = "boolean"
                    · subst h6; simp [handle_boolean_type]
                    · by_cases h7 : t = "null"
                      · subst h7; simp [handle_null_type]
                      · simp [h1, h2, h3, h4, h5, h6, h7]

theorem arrKeyChildren_bound {kvs : List (String × JsonValue)} {k : String}
    {u : JsonValue} (hu : u ∈ arrKeyChildren kvs k) :
    Bv u ≤ Bv (.obj kvs) ∧ szV u < szV (.obj kvs) := by
  rw [arrKeyChildren] at hu
  cases hk : getKey? kvs k with
  | none => rw [hk] at hu; simp at hu
  | some v =>
      rw [hk] at hu
      cases v with
      | arr l =>
          exact ⟨le_trans (Bv_arr_le hu) (Bv_value_le hk),
            lt_trans (szL_mem_lt hu) (szV_value_lt hk)⟩
      | null => simp at hu
      | bool b => simp at hu
      | num n => simp at hu
      | str s => simp at hu
      | obj kvs2 => simp at hu

theorem arrKeyChildren_eq {kvs : List (String × JsonValue)} {k : String}
    {l : List JsonValue} (hk : getKey? kvs k = some (.arr l)) :
    arrKeyChildren kvs k = l := by
  rw [arrKeyChildren, hk]

theorem propsChildren_bound {kvs : List (String × JsonValue)}
    {u : JsonValue} (hu : u ∈ propsChildren kvs) :
    Bv u ≤ Bv (.obj kvs) ∧ szV u < szV (.obj kvs) := by
  rw [propsChildren] at hu
  cases hk : getKey? kvs "properties" with
  | none => rw [hk] at hu; simp [Option.bind] at hu
  | some v =>
      rw [hk] at hu
      cases v with
      | obj props =>
          simp only [Option.bind, JsonValue.as_object] at hu
          rcases List.mem_map.mp hu with ⟨kv, hkv, rfl⟩
          exact ⟨le_trans (Bv_obj_le hkv) (Bv_value_le hk),
            lt_trans (szP_mem_lt hkv) (szV_value_lt hk)⟩
      | null => simp [Option.bind, JsonValue.as_object] at hu
      | bool b => simp [Option.bind, JsonValue.as_object] at hu
      | num n => simp [Option.bind, JsonValue.as_object] at hu
      | str s => simp [Option.bind, JsonValue.as_object] at hu
      | arr xs => simp [Option.bind, JsonValue.as_object] at hu

theorem propsChildren_eq {kvs : List (String × JsonValue)}
    {props : List (String × JsonValue)}
    (hk : getKey? kvs "properties" = some (.obj props)) :
    propsChildren kvs = props.map Prod.snd := by
  rw [propsChildren, hk]
  rfl

theorem typeChildren_bound {kvs : List (String × JsonValue)}
    (hemp : kvs.isEmpty = false) {u : JsonValue} (hu : u ∈ typeChildren kvs) :
    Bv u < Bv (.obj kvs) ∨ (Bv u ≤ Bv (.obj kvs) ∧ szV u < szV (.obj kvs)) := by
  rw [typeChildren] at hu
  rcases List.mem_append.mp hu with hu1 | hu2
  · rcases List.mem_append.mp hu1 with hit | hap
    · cases hk : getKey? kvs "items" with
      | none => rw [hk] at hit; simp at hit
      | some it =>
          rw [hk] at hit
          rcases List.mem_cons.mp hit with rfl | h'
          · exact Or.inr ⟨Bv_value_le hk, szV_value_lt hk⟩
          · simp at h'
    · cases hk : getKey? kvs "additionalProperties" with
      | none => rw [hk] at hap; simp at hap
      | some ap =>
          rw [hk] at hap
          rcases List.mem_cons.mp hap with rfl | h'
          · exact Or.inr ⟨Bv_value_le hk, szV_value_lt hk⟩
          · simp at h'
  · cases hk : getKey? kvs "type" with
    | none => rw [hk] at hu2; simp at hu2
    | some v =>
        rw [hk] at hu2
        cases v with
        | str t =>
            by_cases ha : t = "array"
            · subst ha
              left
              have h1 : Bv u ≤ depthOf kvs := Bv_arrayLegalTypes hu2
              have h2 : depthOf kvs + 1 ≤ Bv (.obj kvs) :=
                Bv_type_lower hemp hk (Or.inr rfl)
              omega
            · by_cases ho : t = "object"
              · subst ho
                left
                rcases List.mem_cons.mp hu2 with rfl | h'
                · have h1 := Bv_anyOfVal (depthOf kvs)
                  have h2 : depthOf kvs + 1 ≤ Bv (.obj kvs) :=
                    Bv_type_lower hemp hk (Or.inl rfl)
                  omega
                · simp at h'
              · rw [show (match some (JsonValue.str t) with
                    | some (.str "array") => arrayLegalTypes (depthOf kvs)
                    | some (.str "object") =>
                        [JsonValue.obj [("anyOf", .arr (objectLegalTypes (depthOf kvs)))]]
                    | _ => ([] : List JsonValue)) = [] from by
                  simp [ha, ho]] at hu2
                simp at hu2
        | null => simp at hu2
        | bool b => simp at hu2
        | num n => simp at hu2
        | arr xs => simp at hu2
        | obj kvs2 => simp at hu2

/- Infrastructure for the termination theorem: strong induction, uniform
fuel bounds over a list of sub-schemas, and unfolding equations for
`toRegexFuel`. -/

theorem strong_ind {p : Nat → Prop} (H : ∀ n, (∀ m, m < n → p m) → p n) : ∀ n, p n := by
  have aux : ∀ k j, j < k → p j := by
    intro k
    induction k with
    | zero => intro j hj; omega
    | succ k ih =>
        intro j hj
        exact H j (fun m hm => ih m (by omega))
  exact fun n => aux (n + 1) n (Nat.lt_succ_self n)

theorem exists_uniform_bound {α : Type} (P : Nat → α → Prop) :
    ∀ (l : List α), (∀ x ∈ l, ∃ n, ∀ m, n ≤ m → P m x) →
    ∃ n, ∀ m, n ≤ m → ∀ x ∈ l, P m x := by
  intro l
  induction l with
  | nil => exact fun _ => ⟨0, fun m _ x hx => absurd hx (List.not_mem_nil x)⟩
  | cons hd tl ih =>
      intro h
      rcases h hd (List.mem_cons_self hd tl) with ⟨n1, h1⟩
      rcases ih (fun x hx => h x (List.mem_cons_of_mem hd hx)) with ⟨n2, h2⟩
      refine ⟨max n1 n2, fun m hm x hx => ?_⟩
      rcases List.mem_cons.mp hx with rfl | hx2
      · exact h1 m (le_trans (le_max_left _ _) hm)
      · exact h2 m (le_trans (le_max_right _ _) hm) x hx2

theorem toRegexFuel_empty (fuel : Nat) (ws : Option String) :
    toRegexFuel (fuel + 1) (.obj []) ws =
      handle_empty_object (fun v => toRegexFuel fuel v (some (ws.getD WHITESPACE)))
        (ws.getD WHITESPACE) := rfl

theorem toRegexFuel_dispatch (fuel : Nat) (kvs : List (String × JsonValue)) (ws : Option String)
    (hemp : kvs.isEmpty = false) (kw : SchemaKeyword) (hsel : selectKeyword kvs = some kw) :
    toRegexFuel (fuel + 1) (.obj kvs) ws =
      dispatchKeyword kw (fun v => toRegexFuel fuel v (some (ws.getD WHITESPACE)))
        kvs (ws.getD WHITESPACE) := by
  rw [toRegexFuel_obj, hemp, hsel]
  simp

theorem toRegexFuel_nokw (fuel : Nat) (kvs : List (String × JsonValue)) (ws : Option String)
    (hemp : kvs.isEmpty = false) (hsel : selectKeyword kvs = none) :
    toRegexFuel (fuel + 1) (.obj kvs) ws = .err "Unsupported JSON Schema structure" := by
  rw [toRegexFuel_obj, hemp, hsel]
  simp

theorem toRegexFuel_nonobj (fuel : Nat) (v : JsonValue) (ws : Option String)
    (h : ∀ kvs, v ≠ JsonValue.obj kvs) :
    toRegexFuel (fuel + 1) v ws = .err "Invalid JSON Schema: expected an object" := by
  cases v with
  | obj kvs => exact absurd rfl (h kvs)
  | null => rfl
  | bool b => rfl
  | num n => rfl
  | str s => rfl
  | arr xs => rfl

theorem Bv_emptyObjectTypes {u : JsonValue} (h : u ∈ emptyObjectTypes) : Bv u ≤ 3 := by
  simp only [emptyObjectTypes, List.mem_cons, List.not_mem_nil, or_false] at h
  rcases h with rfl | rfl | rfl | rfl | rfl | rfl | rfl <;>
    simp [typedSchema, Bv, BvP, potObj, depthOf, getKey?, JsonValue.as_u64]

theorem mem_typeChildren_items {kvs : List (String × JsonValue)} {it : JsonValue}
    (h : getKey? kvs "items" = some it) : it ∈ typeChildren kvs := by
  rw [typeChildren, h]
  simp

theorem mem_typeChildren_ap {kvs : List (String × JsonValue)} {ap : JsonValue}
    (h : getKey? kvs "additionalProperties" = some ap) : ap ∈ typeChildren kvs := by
  rw [typeChildren, h]
  simp

theorem mem_typeChildren_arr {kvs : List (String × JsonValue)} {u : JsonValue}
    (h : getKey? kvs "type" = some (.str "array"))
    (hu : u ∈ arrayLegalTypes (depthOf kvs)) : u ∈ typeChildren kvs := by
  rw [typeChildren, h]
  simp only [List.mem_append]
  exact Or.inr hu

theorem mem_typeChildren_obj {kvs : List (String × JsonValue)}
    (h : getKey? kvs "type" = some (.str "object")) :
    JsonValue.obj [("anyOf", .arr (objectLegalTypes (depthOf kvs)))] ∈ typeChildren kvs := by
  rw [typeChildren, h]
  simp

/-- Termination of the dispatcher: for every schema value and whitespace
configuration there is a fuel level beyond which `toRegexFuel` never runs
out of fuel.  The proof is by strong induction on the lexicographic pair
`(Bv v, szV v)`: sub-value recursion keeps `Bv` and strictly decreases
`szV`, while recursion into synthesized depth-decremented schemas strictly
decreases `Bv`. -/
theorem toRegexFuel_terminates :
    ∀ (v : JsonValue) (ws : Option String),
      ∃ n, ∀ m, n ≤ m → toRegexFuel m v ws ≠ CompRes.fuelOut := by
  have main : ∀ B S (v : JsonValue), Bv v ≤ B → szV v ≤ S →
      ∀ ws, ∃ n, ∀ m, n ≤ m → toRegexFuel m v ws ≠ CompRes.fuelOut := by
    refine strong_ind (fun B ihB => ?_)
    refine strong_ind (fun S ihS => ?_)
    intro v hB hS ws
    have hnon : (∀ kvs, v ≠ JsonValue.obj kvs) →
        ∃ n, ∀ m, n ≤ m → toRegexFuel m v ws ≠ CompRes.fuelOut := by
      intro hv
      refine ⟨1, fun m hm => ?_⟩
      obtain ⟨m2, rfl⟩ : ∃ m2, m = m2 + 1 := ⟨m - 1, by omega⟩
      rw [toRegexFuel_nonobj m2 v ws hv]
      exact fun hc => CompRes.noConfusion hc
    cases v with
    | null => exact hnon (fun kvs h => JsonValue.noConfusion h)
    | bool b => exact hnon (fun kvs h => JsonValue.noConfusion h)
    | num n => exact hnon (fun kvs h => JsonValue.noConfusion h)
    | str s => exact hnon (fun kvs h => JsonValue.noConfusion h)
    | arr xs => exact hnon (fun kvs h => JsonValue.noConfusion h)
    | obj kvs =>
        have hchild : ∀ u : JsonValue,
            (Bv u < Bv (.obj kvs) ∨ (Bv u ≤ Bv (.obj kvs) ∧ szV u < szV (.obj kvs))) →
            ∀ ws2, ∃ n, ∀ m, n ≤ m → toRegexFuel m u ws2 ≠ CompRes.fuelOut := by
          intro u hu ws2
          rcases hu with h1 | ⟨h1, h2⟩
          · exact ihB (Bv u) (lt_of_lt_of_le h1 hB) (szV u) u le_rfl le_rfl ws2
          · exact ihS (szV u) (lt_of_lt_of_le h2 hS) u (le_trans h1 hB) le_rfl ws2
        by_cases hemp : kvs.isEmpty = true
        · have hkvs : kvs = [] := by
            cases kvs with
            | nil => rfl
            | cons hd tl => simp [List.isEmpty] at hemp
          subst hkvs
          have h4B : 4 ≤ B := by
            have h4 : Bv (JsonValue.obj []) = 4 := by simp [Bv, potObj, BvP]
            omega
          have hch : ∀ t ∈ emptyObjectTypes, ∃ n, ∀ m, n ≤ m →
              toRegexFuel m t (some (ws.getD WHITESPACE)) ≠ CompRes.fuelOut := by
            intro t ht
            have h3 : Bv t ≤ 3 := Bv_emptyObjectTypes ht
            exact ihB (Bv t) (by omega) (szV t) t le_rfl le_rfl _
          rcases exists_uniform_bound
              (fun m t => toRegexFuel m t (some (ws.getD WHITESPACE)) ≠ CompRes.fuelOut)
              emptyObjectTypes hch with ⟨n0, hn0⟩
          refine ⟨n0 + 1, fun m hm => ?_⟩
          obtain ⟨m2, rfl⟩ : ∃ m2, m = m2 + 1 := ⟨m - 1, by omega⟩
          rw [toRegexFuel_empty m2 ws]
          exact handle_empty_object_ne_fuelOut (fun t ht => hn0 m2 (by omega) t ht)
        · have hempf : kvs.isEmpty = false := by
            revert hemp
            cases kvs.isEmpty <;> simp
          cases hsel : selectKeyword kvs with
          | none =>
              refine ⟨1, fun m hm => ?_⟩
              obtain ⟨m2, rfl⟩ : ∃ m2, m = m2 + 1 := ⟨m - 1, by omega⟩
              rw [toRegexFuel_nokw m2 kvs ws hempf hsel]
              exact fun hc => CompRes.noConfusion hc
          | some kw =>
              have hbnd : ∀ u : JsonValue,
                  (Bv u < Bv (.obj kvs) ∨ (Bv u ≤ Bv (.obj kvs) ∧ szV u < szV (.obj kvs))) →
                  ∃ n, ∀ m, n ≤ m →
                    toRegexFuel m u (some (ws.getD WHITESPACE)) ≠ CompRes.fuelOut :=
                fun u hu => hchild u hu _
              cases kw with
              | properties =>
                  rcases exists_uniform_bound
                      (fun m u => toRegexFuel m u (some (ws.getD WHITESPACE)) ≠ CompRes.fuelOut)
                      (propsChildren kvs)
                      (fun u hu => hbnd u (Or.inr (propsChildren_bound hu))) with ⟨n0, hn0⟩
                  refine ⟨n0 + 1, fun m hm => ?_⟩
                  obtain ⟨m2, rfl⟩ : ∃ m2, m = m2 + 1 := ⟨m - 1, by omega⟩
                  rw [toRegexFuel_dispatch m2 kvs ws hempf _ hsel]
                  simp only [dispatchKeyword]
                  refine handle_properties_ne_fuelOut ?_
                  intro props hpr kv hkv
                  refine hn0 m2 (by omega) kv.2 ?_
                  rw [propsChildren_eq hpr]
                  exact List.mem_map_of_mem Prod.snd hkv
              | allOf =>
                  rcases exists_uniform_bound
                      (fun m u => toRegexFuel m u (some (ws.getD WHITESPACE)) ≠ CompRes.fuelOut)
                      (arrKeyChildren kvs "allOf")
                      (fun u hu => hbnd u (Or.inr (arrKeyChildren_bound hu))) with ⟨n0, hn0⟩
                  refine ⟨n0 + 1, fun m hm => ?_⟩
                  obtain ⟨m2, rfl⟩ : ∃ m2, m = m2 + 1 := ⟨m - 1, by omega⟩
                  rw [toRegexFuel_dispatch m2 kvs ws hempf _ hsel]
                  simp only [dispatchKeyword]
                  refine handle_all_of_ne_fuelOut ?_
                  intro l hl u hu
                  refine hn0 m2 (by omega) u ?_
                  rw [arrKeyChildren_eq hl]
                  exact hu
              | anyOf =>
                  rcases exists_uniform_bound
                      (fun m u => toRegexFuel m u (some (ws.getD WHITESPACE)) ≠ CompRes.fuelOut)
                      (arrKeyChildren kvs "anyOf")
                      (fun u hu => hbnd u (Or.inr (arrKeyChildren_bound hu))) with ⟨n0, hn0⟩
                  refine ⟨n0 + 1, fun m hm => ?_⟩
                  obtain ⟨m2, rfl⟩ : ∃ m2, m = m2 + 1 := ⟨m - 1, by omega⟩
                  rw [toRegexFuel_dispatch m2 kvs ws hempf _ hsel]
                  simp only [dispatchKeyword]
                  refine handle_any_of_ne_fuelOut ?_
                  intro l hl u hu
                  refine hn0 m2 (by omega) u ?_
                  rw [arrKeyChildren_eq hl]
                  exact hu
              | oneOf =>
                  rcases exists_uniform_bound
                      (fun m u => toRegexFuel m u (some (ws.getD WHITESPACE)) ≠ CompRes.fuelOut)
                      (arrKeyChildren kvs "oneOf")
                      (fun u hu => hbnd u (Or.inr (arrKeyChildren_bound hu))) with ⟨n0, hn0⟩
                  refine ⟨n0 + 1, fun m hm => ?_⟩
                  obtain ⟨m2, rfl⟩ : ∃ m2, m = m2 + 1 := ⟨m - 1, by omega⟩
                  rw [toRegexFuel_dispatch m2 kvs ws hempf _ hsel]
                  simp only [dispatchKeyword]
                  refine handle_one_of_ne_fuelOut ?_
                  intro l hl u hu
                  refine hn0 m2 (by omega) u ?_
                  rw [arrKeyChildren_eq hl]
                  exact hu
              | prefixItems =>
                  rcases exists_uniform_bound
                      (fun m u => toRegexFuel m u (some (ws.getD WHITESPACE)) ≠ CompRes.fuelOut)
                      (arrKeyChildren kvs "prefixItems")
                      (fun u hu => hbnd u (Or.inr (arrKeyChildren_bound hu))) with ⟨n0, hn0⟩
                  refine ⟨n0 + 1, fun m hm => ?_⟩
                  obtain ⟨m2, rfl⟩ : ∃ m2, m = m2 + 1 := ⟨m - 1, by omega⟩
                  rw [toRegexFuel_dispatch m2 kvs ws hempf _ hsel]
                  simp only [dispatchKeyword]
                  refine handle_prefix_items_ne_fuelOut ?_
                  intro l hl u hu
                  refine hn0 m2 (by omega) u ?_
                  rw [arrKeyChildren_eq hl]
                  exact hu
              | enum =>
                  refine ⟨1, fun m hm => ?_⟩
                  obtain ⟨m2, rfl⟩ : ∃ m2, m = m2 + 1 := ⟨m - 1, by omega⟩
                  rw [toRegexFuel_dispatch m2 kvs ws hempf _ hsel]
                  simp only [dispatchKeyword]
                  exact handle_enum_ne_fuelOut kvs _
              | const =>
                  refine ⟨1, fun m hm => ?_⟩
                  obtain ⟨m2, rfl⟩ : ∃ m2, m = m2 + 1 := ⟨m - 1, by omega⟩
                  rw [toRegexFuel_dispatch m2 kvs ws hempf _ hsel]
                  simp only [dispatchKeyword]
                  exact handle_const_ne_fuelOut kvs _
              | ref =>
                  refine ⟨1, fun m hm => ?_⟩
                  obtain ⟨m2, rfl⟩ : ∃ m2, m = m2 + 1 := ⟨m - 1, by omega⟩
                  rw [toRegexFuel_dispatch m2 kvs ws hempf _ hsel]
                  simp only [dispatchKeyword]
                  exact fun hc => CompRes.noConfusion hc
              | type =>
                  rcases exists_uniform_bound
                      (fun m u => toRegexFuel m u (some (ws.getD WHITESPACE)) ≠ CompRes.fuelOut)
                      (typeChildren kvs)
                      (fun u hu => hbnd u (typeChildren_bound hempf hu)) with ⟨n0, hn0⟩
                  refine ⟨n0 + 1, fun m hm => ?_⟩
                  obtain ⟨m2, rfl⟩ : ∃ m2, m = m2 + 1 := ⟨m - 1, by omega⟩
                  rw [toRegexFuel_dispatch m2 kvs ws hempf _ hsel]
                  simp only [dispatchKeyword]
                  refine handle_type_ne_fuelOut ?_ ?_ ?_ ?_
                  · exact fun it hit => hn0 m2 (by omega) it (mem_typeChildren_items hit)
                  · exact fun ap hap => hn0 m2 (by omega) ap (mem_typeChildren_ap hap)
                  · exact fun hk u hu => hn0 m2 (by omega) u (mem_typeChildren_arr hk hu)
                  · exact fun hk => hn0 m2 (by omega) _ (mem_typeChildren_obj hk)
  intro v ws
  exact main (Bv v) (szV v) v le_rfl le_rfl ws

/-- C9 counterexample: the schema with sole member "type": "object" has
nesting depth 1 and carries the default expansion budget 2, yet a recursion
allowance of 3 = 1 + 2 frames — and even 6 — is exhausted; 7 frames are
required, because each budget decrement inserts an intermediate synthesized
anyOf node (and the budget-0 object still expands one more anyOf level over
the scalar alternatives). -/
theorem c9_counterexample :
    toRegexFuel 3 (.obj [("type", .str "object")]) none = CompRes.fuelOut ∧
    toRegexFuel 6 (.obj [("type", .str "object")]) none = CompRes.fuelOut ∧
    toRegexFuel 7 (.obj [("type", .str "object")]) none ≠ CompRes.fuelOut := by
  refine ⟨by decide!, by decide!, by decide!⟩

/-- C9 (amended): for every schema value and whitespace configuration
compilation terminates — beyond some fuel level the dispatcher never
exhausts its recursion allowance — and the unconstrained-type expansion
budget decrements by one at each synthesized nested object/array
alternative and stops offering those alternatives at zero (the budget-0
legal-type lists contain only scalar type schemas); the recursion is,
however, not bounded by nesting depth plus budget (see the
counterexample). -/
theorem c9_termination_and_budget :
    (∀ (v : JsonValue) (ws : Option String),
        ∃ n, ∀ m, toRegexFuel (n + m) v ws ≠ CompRes.fuelOut) ∧
    (∀ d : Nat,
        typedDepthSchema "object" d ∈ arrayLegalTypes (d + 1) ∧
        typedDepthSchema "array" d ∈ arrayLegalTypes (d + 1) ∧
        typedDepthSchema "object" d ∈ objectLegalTypes (d + 1) ∧
        typedDepthSchema "array" d ∈ objectLegalTypes (d + 1)) ∧
    arrayLegalTypes 0 = [typedSchema "boolean", typedSchema "null", typedSchema "number",
      typedSchema "integer", typedSchema "string"] ∧
    objectLegalTypes 0 = [typedSchema "string", typedSchema "number",
      typedSchema "boolean", typedSchema "null"] := by
  refine ⟨?_, ?_, ?_, ?_⟩
  · intro v ws
    rcases toRegexFuel_terminates v ws with ⟨n, hn⟩
    exact ⟨n, fun m => hn (n + m) (Nat.le_add_right n m)⟩
  · intro d
    refine ⟨?_, ?_, ?_, ?_⟩ <;> simp [arrayLegalTypes, objectLegalTypes]
  · simp [arrayLegalTypes]
  · simp [objectLegalTypes]
